import Mathlib

/-!
Verification development for the Commit-Builder repository.

The Python sources are embedded shallowly: strings are `String`/`List Char`,
the regular-expression operations used by the code are implemented as
backtracking matchers with Python `re` semantics (leftmost match, lazy and
greedy quantifiers with depth-first backtracking), file-system and network
effects are replaced by explicit inputs and outcome oracles.
-/

namespace CommitBuilder

/-- The backtick character (U+0060), used by the markdown code-fence literals. -/
def btick : Char := Char.ofNat 96

/-- Python `\s` / `str.strip` whitespace (the Unicode whitespace set used by
`str.isspace` and by `re` on `str` patterns). -/
def isPySpace (c : Char) : Bool :=
  c == ' ' || c == '\t' || c == '\n' || c == '\x0b' || c == '\x0c' || c == '\r' ||
  c == '\x1c' || c == '\x1d' || c == '\x1e' || c == '\x1f' || c == '\x85' || c == '\xa0' ||
  c == '\u1680' || (('\u2000' ≤ c) && (c ≤ '\u200a')) || c == '\u2028' || c == '\u2029' ||
  c == '\u202f' || c == '\u205f' || c == '\u3000'

/-- ASCII digit, for the `\d` class (the repository only feeds it ASCII text). -/
def isAsciiDigit (c : Char) : Bool := ('0' ≤ c) && (c ≤ '9')

/-- ASCII word character, for the `\w` class and `\b` boundaries. -/
def isWordChar (c : Char) : Bool :=
  (('a' ≤ c) && (c ≤ 'z')) || (('A' ≤ c) && (c ≤ 'Z')) || isAsciiDigit c || c == '_'

/-- Newline class, for `\n+`. -/
def isNLChar (c : Char) : Bool := c == '\n'

/-- `startsWithL p s` is true when `p` is a prefix of `s`. -/
def startsWithL : List Char → List Char → Bool
  | [], _ => true
  | _ :: _, [] => false
  | p :: ps, s :: ss => (p == s) && startsWithL ps ss

/-- Drop the exact prefix `p` from `s`, or fail. -/
def stripPrefixL : List Char → List Char → Option (List Char)
  | [], s => some s
  | _ :: _, [] => none
  | p :: ps, s :: ss => if p == s then stripPrefixL ps ss else none

/-- Case-insensitive character comparison (ASCII folding, as used by
`re.IGNORECASE` on the ASCII literals of this repository). -/
def eqCI (a b : Char) : Bool := a.toLower == b.toLower

/-- Drop the prefix `p` from `s` case-insensitively, or fail. -/
def stripPrefixCIL : List Char → List Char → Option (List Char)
  | [], s => some s
  | _ :: _, [] => none
  | p :: ps, s :: ss => if eqCI p s then stripPrefixCIL ps ss else none

/-- `hasSub n s`: `n` occurs as a contiguous substring of `s`. -/
def hasSub (n : List Char) : List Char → Bool
  | [] => startsWithL n []
  | x :: xs => startsWithL n (x :: xs) || hasSub n xs

/-- String-level wrapper for `hasSub`. -/
def hasSubStr (n s : String) : Bool := hasSub n.data s.data

/-- Length of the maximal prefix of `s` whose characters satisfy `cl`. -/
def runLen (cl : Char → Bool) : List Char → Nat
  | [] => 0
  | x :: xs => if cl x then runLen cl xs + 1 else 0

/-- Backtracking search for a greedy quantifier: try the split `n`, then
`n - 1`, …, down to `1` (a `+` quantifier never tries `0`). -/
def tryDown {α : Type} (f : Nat → Option α) : Nat → Option α
  | 0 => none
  | n + 1 =>
    match f (n + 1) with
    | some v => some v
    | none => tryDown f n

/-- Backtracking search for a greedy `*` quantifier: `n`, …, `1`, then `0`. -/
def tryDown0 {α : Type} (f : Nat → Option α) (n : Nat) : Option α :=
  match tryDown f n with
  | some v => some v
  | none => f 0

/-- Lazy `*` over a one-character class: try the continuation before consuming
each further class character. -/
def lazyStarCPS {α : Type} (cl : Char → Bool) (go : List Char → Option α) :
    List Char → Option α
  | [] => go []
  | x :: xs =>
    match go (x :: xs) with
    | some v => some v
    | none => if cl x then lazyStarCPS cl go xs else none

/-- Lazy `+` over a one-character class: consume one class character first. -/
def lazyPlusCPS {α : Type} (cl : Char → Bool) (go : List Char → Option α) :
    List Char → Option α
  | [] => none
  | x :: xs => if cl x then lazyStarCPS cl go xs else none

/-- Capturing lazy `*`: like `lazyStarCPS` but passes the consumed prefix to the
continuation. -/
def capLazyStarCPS {α : Type} (cl : Char → Bool)
    (go : List Char → List Char → Option α) (acc : List Char) :
    List Char → Option α
  | [] => go acc.reverse []
  | x :: xs =>
    match go acc.reverse (x :: xs) with
    | some v => some v
    | none => if cl x then capLazyStarCPS cl go (x :: acc) xs else none

/-- One token of the regex patterns used by the repository.  Every quantifier in
those patterns ranges over a single-character class, so this small language is
complete for them. -/
inductive RTok where
  | lit (l : List Char)
  | litCI (l : List Char)
  | starG (cl : Char → Bool)
  | plusG (cl : Char → Bool)
  | plusL (cl : Char → Bool)
  | capPlusG (cl : Char → Bool)
  | capStarL (cl : Char → Bool)
  | optCI (l : List Char)

/-- Depth-first backtracking matcher for a token sequence, in continuation
style: alternatives of later tokens are explored before revisiting earlier
choices, exactly as Python's `re` engine does.  Captured groups are accumulated
left to right. -/
def mseq {α : Type} : List RTok → List Char → List (List Char) →
    (List Char → List (List Char) → Option α) → Option α
  | [], s, caps, k => k s caps
  | .lit l :: ts, s, caps, k =>
    match stripPrefixL l s with
    | some r => mseq ts r caps k
    | none => none
  | .litCI l :: ts, s, caps, k =>
    match stripPrefixCIL l s with
    | some r => mseq ts r caps k
    | none => none
  | .starG cl :: ts, s, caps, k =>
    tryDown0 (fun i => mseq ts (s.drop i) caps k) (runLen cl s)
  | .plusG cl :: ts, s, caps, k =>
    tryDown (fun i => mseq ts (s.drop i) caps k) (runLen cl s)
  | .plusL cl :: ts, s, caps, k =>
    lazyPlusCPS cl (fun r => mseq ts r caps k) s
  | .capPlusG cl :: ts, s, caps, k =>
    tryDown (fun i => mseq ts (s.drop i) (caps ++ [s.take i]) k) (runLen cl s)
  | .capStarL cl :: ts, s, caps, k =>
    capLazyStarCPS cl (fun g r => mseq ts r (caps ++ [g]) k) [] s
  | .optCI l :: ts, s, caps, k =>
    match stripPrefixCIL l s with
    | some r =>
      (match mseq ts r caps k with
       | some v => some v
       | none => mseq ts s caps k)
    | none => mseq ts s caps k

/-- Tokens of `r"(?:^|\n)#+?\s*Commit\s+(\d+):\s*(.*?)\n+` ``` `(?:java)?\n(.*?)` ``` `"`
(flags `DOTALL | IGNORECASE`), after its leading `(?:^|\n)` alternation.  `.`
matches any character because of `DOTALL`. -/
def p1toks : List RTok :=
  [ .plusL (fun c => c == '#'),
    .starG isPySpace,
    .litCI "Commit".data,
    .plusG isPySpace,
    .capPlusG isAsciiDigit,
    .lit ":".data,
    .starG isPySpace,
    .capStarL (fun _ => true),
    .plusG isNLChar,
    .lit "```".data,
    .optCI "java".data,
    .lit "\n".data,
    .capStarL (fun _ => true),
    .lit "```".data ]

/-- Attempt the structured-commit pattern at one scan position.  `atStart` is
true only at absolute position 0, where the `^` branch of `(?:^|\n)` can match;
the `\n` branch consumes one newline.  `^` is tried first, as in the source
pattern. -/
def tryMatch1 (atStart : Bool) (s : List Char) :
    Option (List (List Char) × List Char) :=
  match (if atStart then mseq p1toks s [] (fun r caps => some (caps, r)) else none) with
  | some v => some v
  | none =>
    match s with
    | c :: rest =>
      if c == '\n' then mseq p1toks rest [] (fun r caps => some (caps, r)) else none
    | [] => none

/-- `re.finditer` scan loop for the structured-commit pattern: attempt a match
at each position left to right; after a match continue at its end.  The pattern
always consumes at least one character, so `length + 1` fuel suffices. -/
def scanP1 : Nat → Bool → List Char → List (List (List Char))
  | 0, _, _ => []
  | fuel + 1, atStart, s =>
    match tryMatch1 atStart s with
    | some (caps, rest) => caps :: scanP1 fuel false rest
    | none =>
      match s with
      | [] => []
      | _ :: tail => scanP1 fuel false tail

/-- All structured-commit matches of `s`, each as its list of three groups. -/
def finditerP1 (s : List Char) : List (List (List Char)) :=
  scanP1 (s.length + 1) true s

/-- Tokens of `r"` ``` `java(.*?)` ``` `"` with `DOTALL` (the fallback block
extractor). -/
def p2toks : List RTok :=
  [ .lit "```java".data, .capStarL (fun _ => true), .lit "```".data ]

/-- Attempt the fallback java-block pattern at one scan position. -/
def tryMatch2 (s : List Char) : Option (List (List Char) × List Char) :=
  mseq p2toks s [] (fun r caps => some (caps, r))

/-- `re.findall` scan loop for the fallback pattern, collecting group 1 of each
match. -/
def scanP2 : Nat → List Char → List (List Char)
  | 0, _ => []
  | fuel + 1, s =>
    match tryMatch2 s with
    | some (caps, rest) => caps.headD [] :: scanP2 fuel rest
    | none =>
      match s with
      | [] => []
      | _ :: tail => scanP2 fuel tail

/-- All fallback-pattern group-1 captures of `s`. -/
def findallP2 (s : List Char) : List (List Char) :=
  scanP2 (s.length + 1) s

/-- Python `str.strip()` on a character list. -/
def stripChars (l : List Char) : List Char :=
  ((l.dropWhile isPySpace).reverse.dropWhile isPySpace).reverse

/-- Python `str.strip()`. -/
def pstrip (s : String) : String := String.mk (stripChars s.data)

/-- The `f"Step {num}"` message, `num` being the matched digit group. -/
def stepMsg (num : List Char) : String := "Step " ++ String.mk num

/-- The message clean-up of `parse_gpt_response`: strip the raw group if it is
non-empty else use `Step num`, then replace messages that start with a code
fence or a block comment, or are empty, by `Step num`. -/
def fixMessage (num msg0 : List Char) : String :=
  let m1 : String := if msg0.isEmpty then stepMsg num else String.mk (stripChars msg0)
  if startsWithL "```".data m1.data || startsWithL "/*".data m1.data || m1 == "" then
    stepMsg num
  else m1

/-- The structured-commit stage of `parse_gpt_response`: one (message, code)
pair per `finditer` match, the code stripped. -/
def structuredCommits (s : String) : List (String × String) :=
  (finditerP1 s.data).map (fun caps =>
    match caps with
    | [num, msg0, code] => (fixMessage num msg0, String.mk (stripChars code))
    | _ => ("", ""))

/-- The fallback stage of `parse_gpt_response`: `("Step i+1", block.strip())`
for each `findall` block. -/
def fallbackBlocks (s : String) : List (String × String) :=
  ((findallP2 s.data).enum).map
    (fun p => ("Step " ++ toString (p.1 + 1), String.mk (stripChars p.2)))

/-- `CommitHistoryGenerator.parse_gpt_response`: structured commits, else any
java code blocks, else the whole stripped response as one commit. -/
def parse_gpt_response (s : String) : List (String × String) :=
  let commits := structuredCommits s
  let commits2 := if commits.isEmpty then fallbackBlocks s else commits
  if commits2.isEmpty then [("Initial implementation", pstrip s)] else commits2

/-- Characters following the first `*/`, if any (the lazy `/\*.*?\*/` body). -/
def dropToStarSlash : List Char → Option (List Char)
  | [] => none
  | '*' :: '/' :: r => some r
  | _ :: r => dropToStarSlash r

/-- `re.sub(r"(?s)/\*.*?\*/", "", s)` scan: a `/*` with a later `*/` is removed
up to the first `*/`; a `/*` with no closing `*/` does not match, and then no
later position can match either, so the rest is kept.  Fuel is the length of
the string; every step consumes at least one character. -/
def sbcF : Nat → List Char → List Char
  | 0, s => s
  | _ + 1, [] => []
  | fuel + 1, '/' :: '*' :: rest =>
    (match dropToStarSlash rest with
     | some r => sbcF fuel r
     | none => '/' :: '*' :: rest)
  | fuel + 1, x :: rest => x :: sbcF fuel rest

/-- `re.sub(r"(?s)/\*.*?\*/", "", s)`. -/
def stripBlockComments (s : List Char) : List Char := sbcF s.length s

mutual
/-- `re.sub(r"//.*", "", s)` scan state: outside a line comment. -/
def slcA : List Char → List Char
  | [] => []
  | '/' :: '/' :: rest => slcB rest
  | x :: rest => x :: slcA rest
/-- `re.sub(r"//.*", "", s)` scan state: inside a line comment (dropped up to,
but not including, the next newline, as `.` does not match `\n`). -/
def slcB : List Char → List Char
  | [] => []
  | '\n' :: rest => '\n' :: slcA rest
  | _ :: rest => slcB rest
end

/-- Attempt `\s*(package|import)[^;]+;\s*` at a line-start position.  The
leading `\s*` is greedy with backtracking, but both literals start with a
non-whitespace character, so only the split at the end of the whitespace run
can succeed; likewise `[^;]+` can only stop immediately before a `;`.  Returns
the rest of the string and whether the last consumed character was a newline
(which decides whether the resume position is a `^` position). -/
def matchPkgImport (s : List Char) : Option (List Char × Bool) :=
  tryDown0 (fun i =>
    let r := s.drop i
    match
      (match stripPrefixL "package".data r with
       | some r2 => some r2
       | none => stripPrefixL "import".data r) with
    | some r2 =>
      let m := runLen (fun c => !(c == ';')) r2
      if m == 0 then none
      else
        match r2.drop m with
        | c :: r3 =>
          if c == ';' then
            let k := runLen isPySpace r3
            some (r3.drop k, (k != 0) && ((r3.take k).getLast? == some '\n'))
          else none
        | [] => none
    | none => none) (runLen isPySpace s)

/-- `re.sub(r"^\s*(package|import)[^;]+;\s*", "", s, flags=re.MULTILINE)` scan:
`^` positions are the string start and every position after a newline of the
original string; a match is skipped and scanning resumes after it. -/
def spiF : Nat → Bool → List Char → List Char
  | 0, _, s => s
  | _ + 1, _, [] => []
  | fuel + 1, atLS, x :: rest =>
    if atLS then
      match matchPkgImport (x :: rest) with
      | some (r, nl) => spiF fuel nl r
      | none => x :: spiF fuel (x == '\n') rest
    else x :: spiF fuel (x == '\n') rest

/-- The package/import-line removal pass. -/
def stripPkgImportLines (s : List Char) : List Char := spiF s.length true s

/-- Does `\bclass\s+\w+` match at the head of `s`?  `\s` and `\w` are disjoint,
so the greedy `\s+` can only stop at the end of its run. -/
def classAt (s : List Char) : Bool :=
  match stripPrefixL "class".data s with
  | some r =>
    let n := runLen isPySpace r
    (n != 0) &&
      (match r.drop n with
       | c :: _ => isWordChar c
       | [] => false)
  | none => false

/-- `re.search(r"\bclass\s+\w+", s) is not None`.  The Boolean argument records
whether the previous character is a word character (false at the start). -/
def searchClassB : Bool → List Char → Bool
  | _, [] => false
  | prevW, x :: rest => (!prevW && classAt (x :: rest)) || searchClassB (isWordChar x) rest

/-- The comment/import cleaning pipeline of `is_complete_java_file`. -/
def cleanJava (l : List Char) : List Char :=
  stripPkgImportLines (slcA (stripBlockComments l))

/-- `CommitHistoryGenerator.is_complete_java_file`. -/
def is_complete_java_file (s : String) : Bool :=
  searchClassB false (cleanJava s.data)

/-- One write of `_apply_commits`: the file content after step `idx` (1-based).
A step's code replaces the current content when it is a complete Java file or
when it is the first step; otherwise it is appended after a blank line. -/
def applyCommitsGo : String → Nat → List (String × String) → List String
  | _, _, [] => []
  | cur, idx, (_, code) :: rest =>
    let next := if is_complete_java_file code || idx == 1 then code
                else cur ++ "\n\n" ++ code
    next :: applyCommitsGo next (idx + 1) rest

/-- The sequence of contents `_apply_commits` writes to the tracked file, one
per parsed step (`current_code` starts empty, `idx` starts at 1). -/
def apply_commits_writes (commits : List (String × String)) : List String :=
  applyCommitsGo "" 1 commits

/-- The commit messages `_apply_commits` creates, one per parsed step:
`f"{package or 'src'}/{filename}: {message}"` (the parsed package is `None` or
a non-empty match group, modelled as `Option String`). -/
def apply_commits_messages (pkg : Option String) (filename : String)
    (commits : List (String × String)) : List String :=
  commits.map (fun mc =>
    (match pkg with | some p => p | none => "src") ++ "/" ++ filename ++ ": " ++ mc.1)

/-- One write under the amended content rule, stated from the amended claim:
a step's code replaces the content when it is judged a complete Java file or
it is the first step, and otherwise is appended after a blank line. -/
def amendedWritesGo : String → Bool → List (String × String) → List String
  | _, _, [] => []
  | cur, isFirst, (_, code) :: rest =>
    let next := if is_complete_java_file code || isFirst then code
                else cur ++ "\n\n" ++ code
    next :: amendedWritesGo next false rest

/-- The write sequence claimed by the amended C3 statement. -/
def amendedClaimWrites (commits : List (String × String)) : List String :=
  amendedWritesGo "" true commits

def tmplCWE15 : String :=
  "package \x7bpackage\x7d;\n\nimport org.junit.jupiter.api.Test;\n" ++
  "import static org.junit.jupiter.api.Assertions.*;\n\npublic class \x7btest_class\x7d \x7b\x7b\n\n" ++
  "    @Test\n    void testCWE15_ExternalControlOfSystemSetting() throws Exception \x7b\x7b\n" ++
  "        String maliciousInput = \x22malicious.config.value\x22;\n        try \x7b\x7b\n" ++
  "            \x7bmain_class\x7d instance = new \x7bmain_class\x7d();\n" ++
  "            instance.setConfiguration(maliciousInput);\n" ++
  "            String result = System.getProperty(\x22some.config.key\x22);\n" ++
  "            assertTrue(result != null && result.equals(maliciousInput), \n" ++
  "                \x22Vulnerability present: Configuration set with untrusted input\x22);\n" ++
  "        \x7d\x7d catch (Throwable t) \x7b\x7b\n" ++
  "            fail(\x22Vulnerability fixed or absent: Configuration setting was blocked or sanitized\x22);\n" ++
  "        \x7d\x7d\n    \x7d\x7d\n\x7d\x7d"

def tmplCWE78 : String :=
  "package \x7bpackage\x7d;\n\nimport org.junit.jupiter.api.Test;\n" ++
  "import static org.junit.jupiter.api.Assertions.*;\n\npublic class \x7btest_class\x7d \x7b\x7b\n\n" ++
  "    @Test\n    void testCWE78_OSCommandInjection() throws Exception \x7b\x7b\n" ++
  "        String maliciousInput = \x22; malicious_command\x22;\n        try \x7b\x7b\n" ++
  "            \x7bmain_class\x7d instance = new \x7bmain_class\x7d();\n" ++
  "            String result = instance.executeCommand(maliciousInput);\n" ++
  "            assertTrue(result != null && result.contains(\x22malicious\x22), \n" ++
  "                \x22Vulnerability present: Command executed with malicious input\x22);\n" ++
  "        \x7d\x7d catch (Throwable t) \x7b\x7b\n" ++
  "            fail(\x22Vulnerability fixed or absent: Command execution was blocked or sanitized\x22);\n" ++
  "        \x7d\x7d\n    \x7d\x7d\n\x7d\x7d"

def tmplCWE80 : String :=
  "package \x7bpackage\x7d;\n\nimport org.junit.jupiter.api.Test;\n" ++
  "import static org.junit.jupiter.api.Assertions.*;\n\npublic class \x7btest_class\x7d \x7b\x7b\n\n" ++
  "    @Test\n    void testCWE80_XSS() throws Exception \x7b\x7b\n" ++
  "        String maliciousInput = \x22<script>alert(\x27xss\x27)</script>\x22;\n" ++
  "        \x7bmain_class\x7d instance = new \x7bmain_class\x7d();\n" ++
  "        String output = instance.processInput(maliciousInput);\n" ++
  "        boolean reflected = output.contains(\x22<script>\x22);\n" ++
  "        boolean escaped = output.contains(\x22&lt;script&gt;\x22);\n" ++
  "        assertTrue(reflected && !escaped, \n" ++
  "            \x22Vulnerability present: Script tag reflected without sanitization\x22);\n" ++
  "    \x7d\x7d\n\x7d\x7d"

def tmplCWE81 : String :=
  "package \x7bpackage\x7d;\n\nimport org.junit.jupiter.api.Test;\n" ++
  "import static org.junit.jupiter.api.Assertions.*;\n\npublic class \x7btest_class\x7d \x7b\x7b\n\n" ++
  "    @Test\n    void testCWE81_ScriptInErrorMessage() throws Exception \x7b\x7b\n" ++
  "        String maliciousInput = \x22<script>alert(\x27xss\x27)</script>\x22;\n" ++
  "        \x7bmain_class\x7d instance = new \x7bmain_class\x7d();\n" ++
  "        String errorMessage = instance.generateErrorMessage(maliciousInput);\n" ++
  "        assertTrue(errorMessage.contains(\x22<script>\x22), \n" ++
  "            \x22Vulnerability present: Script in error message not sanitized\x22);\n    \x7d\x7d\n" ++
  "\x7d\x7d"

def tmplCWE83 : String :=
  "package \x7bpackage\x7d;\n\nimport org.junit.jupiter.api.Test;\n" ++
  "import static org.junit.jupiter.api.Assertions.*;\n\npublic class \x7btest_class\x7d \x7b\x7b\n\n" ++
  "    @Test\n    void testCWE83_ScriptInAttributes() throws Exception \x7b\x7b\n" ++
  "        String maliciousInput = \x22onerror=alert(\x27xss\x27)\x22;\n" ++
  "        \x7bmain_class\x7d instance = new \x7bmain_class\x7d();\n" ++
  "        String output = instance.processAttribute(maliciousInput);\n" ++
  "        assertTrue(output.contains(\x22onerror=alert\x22), \n" ++
  "            \x22Vulnerability present: Script in attribute not sanitized\x22);\n    \x7d\x7d\n" ++
  "\x7d\x7d"

def tmplCWE89 : String :=
  "package \x7bpackage\x7d;\n\nimport org.junit.jupiter.api.Test;\n" ++
  "import static org.junit.jupiter.api.Assertions.*;\n\npublic class \x7btest_class\x7d \x7b\x7b\n\n" ++
  "    @Test\n    void testCWE89_SQLInjection() throws Exception \x7b\x7b\n" ++
  "        String maliciousInput = \x22\x27 OR \x271\x27=\x271\x22;\n" ++
  "        \x7bmain_class\x7d instance = new \x7bmain_class\x7d();\n        try \x7b\x7b\n" ++
  "            String query = instance.buildQuery(maliciousInput);\n" ++
  "            boolean injectionRisk = query.toLowerCase().contains(\x22\x27 or \x271\x27=\x271\x22) || \n" ++
  "                                  query.contains(maliciousInput);\n" ++
  "            assertTrue(injectionRisk, \n" ++
  "                \x22Vulnerability present: SQL input used unsafely in query\x22);\n" ++
  "        \x7d\x7d catch (Throwable t) \x7b\x7b\n" ++
  "            fail(\x22Vulnerability fixed or query construction failed safely\x22);\n" ++
  "        \x7d\x7d\n    \x7d\x7d\n\x7d\x7d"

def tmplCWE113 : String :=
  "package \x7bpackage\x7d;\n\nimport org.junit.jupiter.api.Test;\n" ++
  "import static org.junit.jupiter.api.Assertions.*;\nimport static org.mockito.Mockito.*;\n" ++
  "import org.mockito.ArgumentCaptor;\nimport javax.servlet.http.*;\n\n" ++
  "public class \x7btest_class\x7d \x7b\x7b\n\n    @Test\n" ++
  "    void testCWE113_HTTPResponseSplitting() throws Exception \x7b\x7b\n" ++
  "        String maliciousInput = \x22en-US%0d%0aSet-Cookie:evil=1\x22;\n" ++
  "        \x7bmain_class\x7d instance = new \x7bmain_class\x7d();\n" ++
  "        HttpServletResponse response = mock(HttpServletResponse.class);\n\n        try \x7b\x7b\n" ++
  "            instance.bad(null, response);\n        \x7d\x7d catch (Throwable t) \x7b\x7b\n" ++
  "            fail(\x22Vulnerability fixed or not triggered: Exception occurred\x22);\n" ++
  "        \x7d\x7d\n\n" ++
  "        ArgumentCaptor<Cookie> cookieCaptor = ArgumentCaptor.forClass(Cookie.class);\n" ++
  "        verify(response).addCookie(cookieCaptor.capture());\n" ++
  "        Cookie added = cookieCaptor.getValue();\n\n" ++
  "        boolean isVulnerable = added.getValue().contains(\x22\\r\x22) || \n" ++
  "                             added.getValue().contains(\x22\\n\x22) || \n" ++
  "                             added.getValue().contains(\x22%0d%0a\x22);\n" ++
  "        assertTrue(isVulnerable, \n" ++
  "            \x22Vulnerability fixed or input sanitized: CRLF not propagated to cookie value\x22);\n" ++
  "    \x7d\x7d\n\x7d\x7d"

def tmplCWE129 : String :=
  "package \x7bpackage\x7d;\n\nimport org.junit.jupiter.api.Test;\n" ++
  "import static org.junit.jupiter.api.Assertions.*;\n\npublic class \x7btest_class\x7d \x7b\x7b\n\n" ++
  "    @Test\n    void testCWE129_ImproperArrayIndexValidation() throws Exception \x7b\x7b\n" ++
  "        int invalidIndex = -1;\n        try \x7b\x7b\n" ++
  "            \x7bmain_class\x7d instance = new \x7bmain_class\x7d();\n" ++
  "            instance.accessArray(invalidIndex);\n" ++
  "            fail(\x22Vulnerability fixed: No exception thrown for invalid array index\x22);\n" ++
  "        \x7d\x7d catch (ArrayIndexOutOfBoundsException e) \x7b\x7b\n" ++
  "            assertTrue(true, \x22Vulnerability present: Invalid index causes exception\x22);\n" ++
  "        \x7d\x7d catch (Throwable t) \x7b\x7b\n" ++
  "            fail(\x22Vulnerability fixed: Array index is validated\x22);\n        \x7d\x7d\n" ++
  "    \x7d\x7d\n\x7d\x7d"

def tmplCWE134 : String :=
  "package \x7bpackage\x7d;\n\nimport org.junit.jupiter.api.Test;\n" ++
  "import static org.junit.jupiter.api.Assertions.*;\n\npublic class \x7btest_class\x7d \x7b\x7b\n\n" ++
  "    @Test\n    void testCWE134_UncontrolledFormatString() throws Exception \x7b\x7b\n" ++
  "        String maliciousInput = \x22%n%s\x22;\n" ++
  "        \x7bmain_class\x7d instance = new \x7bmain_class\x7d();\n        try \x7b\x7b\n" ++
  "            String output = instance.formatString(maliciousInput);\n" ++
  "            assertTrue(output != null, \n" ++
  "                \x22Vulnerability present: Format string processed unsafely\x22);\n" ++
  "        \x7d\x7d catch (Throwable t) \x7b\x7b\n" ++
  "            fail(\x22Vulnerability fixed: Format string is sanitized or handled safely\x22);\n" ++
  "        \x7d\x7d\n    \x7d\x7d\n\x7d\x7d"

def tmplCWE606 : String :=
  "package \x7bpackage\x7d;\n\nimport org.junit.jupiter.api.Test;\n" ++
  "import static org.junit.jupiter.api.Assertions.*;\n\npublic class \x7btest_class\x7d \x7b\x7b\n\n" ++
  "    @Test\n    void testCWE606_UncheckedLoopCondition() throws Exception \x7b\x7b\n" ++
  "        int maliciousInput = -1;\n        try \x7b\x7b\n" ++
  "            \x7bmain_class\x7d instance = new \x7bmain_class\x7d();\n" ++
  "            instance.processLoop(maliciousInput);\n" ++
  "            fail(\x22Vulnerability fixed: Loop ran with unchecked input\x22);\n" ++
  "        \x7d\x7d catch (Throwable t) \x7b\x7b\n" ++
  "            assertTrue(true, \x22Vulnerability present: Unchecked loop condition causes issue\x22);\n" ++
  "        \x7d\x7d\n    \x7d\x7d\n\x7d\x7d"

def templateTable : List (String × String) := [
  ("CWE15", tmplCWE15),
  ("CWE78", tmplCWE78),
  ("CWE80", tmplCWE80),
  ("CWE81", tmplCWE81),
  ("CWE83", tmplCWE83),
  ("CWE89", tmplCWE89),
  ("CWE113", tmplCWE113),
  ("CWE129", tmplCWE129),
  ("CWE134", tmplCWE134),
  ("CWE606", tmplCWE606)
]

/-- The `CWE_TEMPLATES` class table of `VulnerabilityTestGenerator`:
identifier, vulnerability name, canonical test method. -/
def CWE_TEMPLATES : List (String × String × String) := [
  ("CWE15", "External Control of System Setting", "setConfiguration"),
  ("CWE78", "OS Command Injection", "executeCommand"),
  ("CWE80", "Reflected XSS", "processInput"),
  ("CWE81", "Script in Error Message", "generateErrorMessage"),
  ("CWE83", "Script in Attributes", "processAttribute"),
  ("CWE89", "SQL Injection", "buildQuery"),
  ("CWE113", "HTTP Response Splitting", "bad"),
  ("CWE129", "Improper Array Index Validation", "accessArray"),
  ("CWE134", "Uncontrolled Format String", "formatString"),
  ("CWE606", "Unchecked Loop Condition", "processLoop")
]

/-- Python `name.replace(' ', '')`: with a one-character pattern and empty
replacement this removes every space. -/
def removeSpaces (s : String) : String :=
  String.mk (s.data.filter (fun c => !(c == ' ')))

/-- The generic fallback template of `get_test_template`, an f-string over the
`CWE_TEMPLATES` info of the id (with defaults for an unknown id).  `\x7b` and
`\x7d` are the literal braces of the rendered f-string. -/
def fallbackTemplate (cwe_id : String) : String :=
  let info := CWE_TEMPLATES.lookup cwe_id
  let vulnName := match info with | some p => p.1 | none => "security vulnerability"
  let methodName := match info with | some p => p.2 | none => "processInput"
  "package \x7bpackage\x7d;\n\nimport org.junit.jupiter.api.Test;\n" ++
  "import static org.junit.jupiter.api.Assertions.*;\n\n" ++
  "public class \x7btest_class\x7d \x7b\n    \n    @Test\n    void test" ++
  cwe_id ++ "_" ++ removeSpaces vulnName ++ "() throws Exception \x7b\n" ++
  "        // Test for " ++ cwe_id ++ ": " ++ vulnName ++ "\n" ++
  "        \x7bmain_class\x7d instance = new \x7bmain_class\x7d();\n        \n" ++
  "        // TODO: Implement specific test for " ++ methodName ++ " method\n" ++
  "        fail(\x22Test not implemented for " ++ cwe_id ++ "\x22);\n    \x7d\n\x7d"

/-- `VulnerabilityTestGenerator.get_test_template`: the specific template for a
known id, else the generic fallback. -/
def get_test_template (cwe_id : String) : String :=
  match templateTable.lookup cwe_id with
  | some t => t
  | none => fallbackTemplate cwe_id

/-- Leftmost `re.search(r"CWE(\d+)", s)` scan: group 1 is the maximal digit run
after the first `CWE` that is followed by at least one digit. -/
def cweScan : List Char → Option (List Char)
  | [] => none
  | x :: rest =>
    match
      (match stripPrefixL "CWE".data (x :: rest) with
       | some r =>
         (let n := runLen isAsciiDigit r
          if n == 0 then none else some (r.take n))
       | none => none) with
    | some ds => some ds
    | none => cweScan rest

/-- `VulnerabilityTestGenerator.extract_cwe_from_filename`:
`f"CWE{match.group(1)}"` for the leftmost match, else `None`. -/
def extract_cwe_from_filename (filename : String) : Option String :=
  match cweScan filename.data with
  | some ds => some ("CWE" ++ String.mk ds)
  | none => none

/-- The CWE id `generate_test` actually uses: when the id extracted from the
filename is missing or not a key of `CWE_TEMPLATES`, it is replaced by
`"CWE113"` (the source prints `Warning: Unknown CWE, defaulting to CWE113`). -/
def effectiveCwe (filename : String) : String :=
  match extract_cwe_from_filename filename with
  | some c => if (CWE_TEMPLATES.lookup c).isSome then c else "CWE113"
  | none => "CWE113"

/-- The reference template `generate_test` hands to `build_prompt` for a given
input filename. -/
def generateTestTemplateFor (filename : String) : String :=
  get_test_template (effectiveCwe filename)

/-- A JSON scalar as it occurs in a findings file. -/
inductive JVal where
  | jstr (s : String)
  | jnum (n : Int)
  | jnull
deriving DecidableEq

/-- Python truthiness of a JSON scalar: `None`, `""` and `0` are falsy. -/
def jTruthy : JVal → Bool
  | .jstr s => s != ""
  | .jnum n => n != 0
  | .jnull => false

/-- A finding object: association list from field name to value (`dict.get`
returns the first binding or `None`). -/
abbrev Finding := List (String × JVal)

/-- `finding.get(key)`. -/
def fget (f : Finding) (key : String) : Option JVal := f.lookup key

/-- Python truthiness of a `dict.get` result. -/
def oTruthy : Option JVal → Bool
  | none => false
  | some v => jTruthy v

/-- Python `a or b`: `a` when truthy, else `b`. -/
def pyOr (a b : Option JVal) : Option JVal := if oTruthy a then a else b

/-- `patch_all_findings` field extraction:
`finding.get("file_path") or finding.get("filepath") or finding.get("path") or
finding.get("filePath")`. -/
def findingFilePath (f : Finding) : Option JVal :=
  pyOr (fget f "file_path") (pyOr (fget f "filepath") (pyOr (fget f "path") (fget f "filePath")))

/-- `finding.get("line") or finding.get("line_number")`. -/
def findingLine (f : Finding) : Option JVal :=
  pyOr (fget f "line") (fget f "line_number")

/-- `finding.get("cwe_id") or finding.get("cweId") or finding.get("cwe")`. -/
def findingCwe (f : Finding) : Option JVal :=
  pyOr (fget f "cwe_id") (pyOr (fget f "cweId") (fget f "cwe"))

/-- The full `(file_path, line, cwe_id)` triple a finding is reduced to. -/
def extractFields (f : Finding) : Option JVal × Option JVal × Option JVal :=
  (findingFilePath f, findingLine f, findingCwe f)

/-- `all([file_path, vuln_line, cwe_id])`. -/
def findingComplete (f : Finding) : Bool :=
  oTruthy (findingFilePath f) && oTruthy (findingLine f) && oTruthy (findingCwe f)

/-- Outcome of the patch/apply/commit attempt for one finding, abstracting the
LLM call, the file write and the git subprocesses: the body raised, or
`commit_and_push` returned `ok`. -/
inductive PatchOutcome where
  | raised
  | committed (ok : Bool)

/-- The counters kept by `patch_all_findings`. -/
structure PatchStats where
  total : Nat
  patched : Nat
  failed : Nat
deriving DecidableEq

/-- One loop iteration of `patch_all_findings`: an incomplete finding counts as
failed; otherwise a raised exception or a failed commit counts as failed and a
successful commit as patched. -/
def patchStep (oc : PatchOutcome) (f : Finding) (st : PatchStats) : PatchStats :=
  if !(findingComplete f) then { st with failed := st.failed + 1 }
  else
    match oc with
    | .raised => { st with failed := st.failed + 1 }
    | .committed true => { st with patched := st.patched + 1 }
    | .committed false => { st with failed := st.failed + 1 }

/-- The findings loop, the `i`-th finding's external outcome given by the
oracle. -/
def patchLoop (oracle : Nat → PatchOutcome) : Nat → PatchStats → List Finding → PatchStats
  | _, st, [] => st
  | i, st, f :: rest => patchLoop oracle (i + 1) (patchStep (oracle i) f st) rest

/-- `VulnerabilityPatcher.patch_all_findings`: early return with zero counters
for an empty findings list, else the loop starting from
`{"total": len(findings), "patched": 0, "failed": 0}`. -/
def patch_all_findings (findings : List Finding) (oracle : Nat → PatchOutcome) : PatchStats :=
  if findings.isEmpty then ⟨0, 0, 0⟩
  else patchLoop oracle 0 ⟨findings.length, 0, 0⟩ findings

/-- Split a character list on `-`, as `str.split("-")` does. -/
def splitDash : List Char → List (List Char)
  | [] => [[]]
  | '-' :: rest => [] :: splitDash rest
  | x :: rest =>
    match splitDash rest with
    | h :: t => (x :: h) :: t
    | [] => [x :: rest]

/-- `x.split("-")[-1]`. -/
def lastDashChunk (s : List Char) : List Char := (splitDash s).getLastD []

/-- `int` on a string of ASCII digits (the sort-key hypothesis guarantees the
argument is a non-empty digit string, where Python's `int` is exactly this
fold). -/
def natOfDigits (l : List Char) : Nat :=
  l.foldl (fun n c => n * 10 + (c.toNat - 48)) 0

/-- The numeric sort key `int(x.split("-")[-1])` of `find_testcase_directories`. -/
def tcKey (s : String) : Nat := natOfDigits (lastDashChunk s.data)

/-- Comparison by testcase number. -/
def tcLe (a b : String) : Prop := tcKey a ≤ tcKey b

instance : DecidableRel tcLe := fun a b => Nat.decLe (tcKey a) (tcKey b)

instance : IsTotal String tcLe := ⟨fun a b => Nat.le_total (tcKey a) (tcKey b)⟩

instance : IsTrans String tcLe := ⟨fun _ _ _ => Nat.le_trans⟩

/-- `VulnerabilityPipeline.find_testcase_directories` on the glob results:
`testcase_dirs.sort(key=lambda x: int(x.split("-")[-1]))`.  Python's sort is
stable, and a stable sort by a fixed key is extensionally unique, so insertion
sort computes the same list. -/
def find_testcase_directories (dirs : List String) : List String :=
  List.insertionSort tcLe dirs

/-- The three pipeline steps of `process_single_testcase`, as trace events
recorded when the corresponding `run_*` method is invoked. -/
inductive StepEv where
  | commitHist
  | cweAnalysis
  | patchGen
deriving DecidableEq

/-- `VulnerabilityPipeline.process_single_testcase`, the three `run_*` calls
abstracted into outcomes: `o1` is commit-history success, `o2` the
`(success, findings_file)` pair of `run_cwe_analysis`, `o3` patch-generation
success.  Returns the invocation trace and the `completed_steps` list. -/
def process_single_testcase (o1 : Bool) (o2 : Bool × Option String) (o3 : Bool) :
    List StepEv × List String :=
  if !o1 then ([.commitHist], [])
  else if !(o2.1 && o2.2.isSome) then ([.commitHist, .cweAnalysis], ["commit_history"])
  else ([.commitHist, .cweAnalysis, .patchGen],
        ["commit_history", "cwe_analysis"] ++ (if o3 then ["patch_generation"] else []))

/-- One structured commit block `# Commit n: \<msg\>` followed by a fenced java
block, as character data. -/
def commitBlockChars (n : Char) (m c : List Char) : List Char :=
  "# Commit ".data ++ n :: (": ".data ++ (m ++ ("\n```java\n".data ++ (c ++ "\n```".data))))

/-- A response made of three structured commit blocks separated by newlines. -/
def structuredResponse3 (m1 c1 m2 c2 m3 c3 : String) : String :=
  String.mk (commitBlockChars '1' m1.data c1.data ++ '\n' ::
    (commitBlockChars '2' m2.data c2.data ++ '\n' ::
      commitBlockChars '3' m3.data c3.data))

/-- A response with two fenced java blocks and no other backticks. -/
def fallbackResponse2 (a b c d e : String) : String :=
  a ++ "```java" ++ b ++ "```" ++ c ++ "```java" ++ d ++ "```" ++ e

/-- A well-formed structured commit message: non-empty, pre-trimmed, on one
line, without backticks, and not starting a block comment. -/
def goodMsg (m : String) : Prop :=
  m ≠ "" ∧ pstrip m = m ∧ (∀ ch ∈ m.data, ch ≠ '\n' ∧ ch ≠ btick) ∧
    startsWithL "/*".data m.data = false

/-- A well-formed fenced code body: pre-trimmed and without backticks. -/
def goodCode (c : String) : Prop :=
  pstrip c = c ∧ ∀ ch ∈ c.data, ch ≠ btick

set_option maxRecDepth 40000

theorem lazyStar_first_try {α : Type} (cl : Char → Bool) (go : List Char → Option α)
    (s : List Char) (v : α) (h : go s = some v) : lazyStarCPS cl go s = some v := by
  cases s with
  | nil => simpa [lazyStarCPS] using h
  | cons x xs => simp [lazyStarCPS, h]

theorem capLazyStar_first {α : Type} (cl F : Char → Bool)
    (go : List Char → List Char → Option α) (v : α) :
    ∀ (pre : List Char) (acc post : List Char),
    (∀ a x xs, F x = true → go a (x :: xs) = none) →
    (∀ ch ∈ pre, F ch = true ∧ cl ch = true) →
    go (acc.reverse ++ pre) post = some v →
    capLazyStarCPS cl go acc (pre ++ post) = some v := by
  intro pre
  induction pre with
  | nil =>
    intro acc post _ _ hsucc
    cases post with
    | nil => simpa using hsucc
    | cons x xs =>
      simp only [List.nil_append, capLazyStarCPS]
      rw [show go acc.reverse (x :: xs) = some v from by simpa using hsucc]
  | cons p ps ih =>
    intro acc post hfail hpre hsucc
    simp only [List.cons_append, capLazyStarCPS, List.append_eq]
    rw [hfail acc.reverse p (ps ++ post) (hpre p (by simp)).1]
    rw [if_pos]
    · exact ih (p :: acc) post hfail (fun ch hch => hpre ch (by simp [hch]))
        (by simpa [List.append_assoc] using hsucc)
    · exact (hpre p (by simp)).2

theorem mseq_plusG_head_none {α : Type} (cl : Char → Bool) (x : Char) (xs : List Char)
    (ts : List RTok) (caps : List (List Char))
    (k : List Char → List (List Char) → Option α) (h : cl x = false) :
    mseq (.plusG cl :: ts) (x :: xs) caps k = none := by
  simp [mseq, runLen, h, tryDown]

theorem mseq_lit_head_none {α : Type} (p : Char) (ps : List Char) (x : Char) (xs : List Char)
    (ts : List RTok) (caps : List (List Char))
    (k : List Char → List (List Char) → Option α) (h : (p == x) = false) :
    mseq (.lit (p :: ps) :: ts) (x :: xs) caps k = none := by
  simp [mseq, stripPrefixL, h]

theorem tryDown_top {α : Type} (f : Nat → Option α) (n : Nat) (v : α)
    (h : f (n + 1) = some v) : tryDown f (n + 1) = some v := by
  simp [tryDown, h]

theorem tryDown0_top {α : Type} (f : Nat → Option α) (n : Nat) (v : α)
    (h : f n = some v) : tryDown0 f n = some v := by
  cases n with
  | zero => simp [tryDown0, tryDown, h]
  | succ m => simp [tryDown0, tryDown, h]

/- Success-directed evaluation rules for `mseq`, one per token kind; each
follows the first alternative the backtracking engine tries, so a completed
derivation built from them computes the engine's actual result. -/

theorem mseq_nil_step {α : Type} (s : List Char) (caps : List (List Char))
    (k : List Char → List (List Char) → Option α) (v : α)
    (h : k s caps = some v) : mseq [] s caps k = some v := h

theorem mseq_lit_step {α : Type} (l : List Char) (ts : List RTok) (s r : List Char)
    (caps : List (List Char)) (k : List Char → List (List Char) → Option α) (v : α)
    (h : stripPrefixL l s = some r) (hsucc : mseq ts r caps k = some v) :
    mseq (.lit l :: ts) s caps k = some v := by
  simp [mseq, h, hsucc]

theorem mseq_litCI_step {α : Type} (l : List Char) (ts : List RTok) (s r : List Char)
    (caps : List (List Char)) (k : List Char → List (List Char) → Option α) (v : α)
    (h : stripPrefixCIL l s = some r) (hsucc : mseq ts r caps k = some v) :
    mseq (.litCI l :: ts) s caps k = some v := by
  simp [mseq, h, hsucc]

theorem mseq_starG_step {α : Type} (cl : Char → Bool) (ts : List RTok) (s : List Char)
    (i : Nat) (caps : List (List Char)) (k : List Char → List (List Char) → Option α)
    (v : α) (h : runLen cl s = i) (hsucc : mseq ts (s.drop i) caps k = some v) :
    mseq (.starG cl :: ts) s caps k = some v := by
  simp only [mseq, h]
  exact tryDown0_top _ _ _ hsucc

theorem mseq_plusG_step {α : Type} (cl : Char → Bool) (ts : List RTok) (s : List Char)
    (i : Nat) (caps : List (List Char)) (k : List Char → List (List Char) → Option α)
    (v : α) (h : runLen cl s = i + 1) (hsucc : mseq ts (s.drop (i + 1)) caps k = some v) :
    mseq (.plusG cl :: ts) s caps k = some v := by
  simp only [mseq, h]
  exact tryDown_top _ _ _ hsucc

theorem mseq_capPlusG_step {α : Type} (cl : Char → Bool) (ts : List RTok) (s : List Char)
    (i : Nat) (caps : List (List Char)) (k : List Char → List (List Char) → Option α)
    (v : α) (h : runLen cl s = i + 1)
    (hsucc : mseq ts (s.drop (i + 1)) (caps ++ [s.take (i + 1)]) k = some v) :
    mseq (.capPlusG cl :: ts) s caps k = some v := by
  simp only [mseq, h]
  exact tryDown_top _ _ _ hsucc

theorem mseq_plusL_step {α : Type} (cl : Char → Bool) (ts : List RTok) (x : Char)
    (xs : List Char) (caps : List (List Char))
    (k : List Char → List (List Char) → Option α) (v : α)
    (hcl : cl x = true) (hsucc : mseq ts xs caps k = some v) :
    mseq (.plusL cl :: ts) (x :: xs) caps k = some v := by
  simp only [mseq, lazyPlusCPS, hcl, if_true]
  exact lazyStar_first_try _ _ _ _ hsucc

theorem mseq_optCI_step {α : Type} (l : List Char) (ts : List RTok) (s r : List Char)
    (caps : List (List Char)) (k : List Char → List (List Char) → Option α) (v : α)
    (h : stripPrefixCIL l s = some r) (hsucc : mseq ts r caps k = some v) :
    mseq (.optCI l :: ts) s caps k = some v := by
  simp [mseq, h, hsucc]

theorem mseq_capStarL_first {α : Type} (cl F : Char → Bool) (ts : List RTok)
    (pre post : List Char) (caps : List (List Char))
    (k : List Char → List (List Char) → Option α) (v : α)
    (hfail : ∀ x xs caps', F x = true → mseq ts (x :: xs) caps' k = none)
    (hpre : ∀ ch ∈ pre, F ch = true ∧ cl ch = true)
    (hsucc : mseq ts post (caps ++ [pre]) k = some v) :
    mseq (.capStarL cl :: ts) (pre ++ post) caps k = some v := by
  simp only [mseq]
  exact capLazyStar_first cl F _ v pre [] post
    (fun a x xs hx => hfail x xs (caps ++ [a]) hx)
    hpre (by simpa using hsucc)

theorem fence_data : "```".data = btick :: btick :: btick :: [] := rfl

theorem nl_ne_btick : (('\n' : Char) == btick) = false := by decide

theorem mseq_fence_tail {α : Type} (c rest : List Char) (caps : List (List Char))
    (k : List Char → List (List Char) → Option α) (v : α)
    (hc : ∀ ch ∈ c, (ch == btick) = false)
    (hk : k rest (caps ++ [c ++ ['\n']]) = some v) :
    mseq [.plusG isNLChar, .lit "```".data, .optCI "java".data, .lit "\n".data,
          .capStarL (fun _ => true), .lit "```".data]
      ("\n```java\n".data ++ (c ++ ("\n```".data ++ rest))) caps k = some v := by
  refine mseq_plusG_step _ _ _ 0 _ _ _ rfl ?_
  refine mseq_lit_step _ _ _
    ('j' :: 'a' :: 'v' :: 'a' :: '\n' :: (c ++ ("\n```".data ++ rest))) _ _ _ rfl ?_
  refine mseq_optCI_step _ _ _ ('\n' :: (c ++ ("\n```".data ++ rest))) _ _ _ rfl ?_
  refine mseq_lit_step _ _ _ (c ++ ("\n```".data ++ rest)) _ _ _ rfl ?_
  rw [show c ++ ("\n```".data ++ rest) = (c ++ ['\n']) ++ ("```".data ++ rest) from by
    simp]
  refine mseq_capStarL_first _ (fun x => !(x == btick)) _ _ _ _ _ _ ?_ ?_ ?_
  · intro x xs caps2 hx
    rw [fence_data]
    refine mseq_lit_head_none _ _ _ _ _ _ _ ?_
    simp only [beq_eq_false_iff_ne]
    have hx2 : ¬ x = btick := by simpa using hx
    exact fun h => hx2 h.symm
  · intro ch hch
    refine ⟨?_, rfl⟩
    rcases List.mem_append.mp hch with h | h
    · simpa using hc ch h
    · simp only [List.mem_singleton] at h
      subst h
      simpa using nl_ne_btick
  · refine mseq_lit_step _ _ _ rest _ _ _ rfl ?_
    exact mseq_nil_step _ _ _ _ hk

/-- The structured pattern (past its leading alternation) matches one
`# Commit n: msg` block at the head of the input, capturing the digit, the
message, and the fenced body followed by its newline. -/
theorem mseq_block1 {α : Type} (n mh : Char) (mt c rest : List Char)
    (k : List Char → List (List Char) → Option α) (v : α)
    (hn_d : isAsciiDigit n = true) (hn_ws : isPySpace n = false)
    (hm_nl : ∀ ch ∈ mh :: mt, (ch == '\n') = false)
    (hmh_ws : isPySpace mh = false)
    (hc : ∀ ch ∈ c, (ch == btick) = false)
    (hk : k rest [[n], mh :: mt, c ++ ['\n']] = some v) :
    mseq p1toks (commitBlockChars n (mh :: mt) c ++ rest) [] k = some v := by
  have hsp : isPySpace ' ' = true := by decide
  have hcolon : isAsciiDigit ':' = false := by decide
  have hshape : commitBlockChars n (mh :: mt) c ++ rest =
      "# Commit ".data ++ n :: (": ".data ++ ((mh :: mt) ++
        ("\n```java\n".data ++ (c ++ ("\n```".data ++ rest))))) := by
    simp [commitBlockChars, List.append_assoc]
  rw [hshape, p1toks]
  refine mseq_plusL_step _ _ _ _ _ _ _ rfl ?_
  refine mseq_starG_step _ _ _ 1 _ _ _ rfl ?_
  refine mseq_litCI_step _ _ _
    (' ' :: n :: (": ".data ++ ((mh :: mt) ++
      ("\n```java\n".data ++ (c ++ ("\n```".data ++ rest)))))) _ _ _ rfl ?_
  refine mseq_plusG_step _ _ _ 0 _ _ _ ?_ ?_
  · simp [runLen, hsp, hn_ws]
  refine mseq_capPlusG_step _ _ _ 0 _ _ _ ?_ ?_
  · simp [runLen, hn_d, hcolon]
  refine mseq_lit_step _ _ _
    (' ' :: ((mh :: mt) ++ ("\n```java\n".data ++ (c ++ ("\n```".data ++ rest)))))
    _ _ _ rfl ?_
  refine mseq_starG_step _ _ _ 1 _ _ _ ?_ ?_
  · simp [runLen, hsp, hmh_ws]
  refine mseq_capStarL_first _ (fun x => !(x == '\n')) _ (mh :: mt) _ _ _ _ ?_ ?_ ?_
  · intro x xs caps2 hx
    refine mseq_plusG_head_none _ _ _ _ _ _ ?_
    simpa [isNLChar] using hx
  · intro ch hch
    exact ⟨by simpa using hm_nl ch hch, rfl⟩
  · refine mseq_fence_tail _ _ _ _ _ hc ?_
    simpa using hk




theorem tryMatch1_start (s : List Char) (caps : List (List Char)) (rest : List Char)
    (h : mseq p1toks s [] (fun r cs => some (cs, r)) = some (caps, rest)) :
    tryMatch1 true s = some (caps, rest) := by
  simp [tryMatch1, h]

theorem tryMatch1_newline (tail : List Char) (caps : List (List Char)) (rest : List Char)
    (h : mseq p1toks tail [] (fun r cs => some (cs, r)) = some (caps, rest)) :
    tryMatch1 false ('\n' :: tail) = some (caps, rest) := by
  simp [tryMatch1, h]

theorem scanP1_match (fuel : Nat) (a : Bool) (s : List Char) (caps : List (List Char))
    (rest : List Char) (h : tryMatch1 a s = some (caps, rest)) :
    scanP1 (fuel + 1) a s = caps :: scanP1 fuel false rest := by
  simp [scanP1, h]

theorem scanP1_nil (fuel : Nat) (a : Bool) : scanP1 fuel a [] = [] := by
  cases fuel <;> cases a <;> rfl

theorem scanP2_match (fuel : Nat) (s : List Char) (caps : List (List Char))
    (rest : List Char) (h : tryMatch2 s = some (caps, rest)) :
    scanP2 (fuel + 1) s = caps.headD [] :: scanP2 fuel rest := by
  simp [scanP2, h]

theorem scanP2_nil (fuel : Nat) : scanP2 fuel [] = [] := by
  cases fuel <;> rfl

theorem length_dropWhile_le (p : Char → Bool) (l : List Char) :
    (l.dropWhile p).length ≤ l.length := by
  induction l with
  | nil => simp
  | cons x xs ih =>
    rw [List.dropWhile_cons]
    by_cases hx : p x = true
    · rw [if_pos hx]
      simp
      omega
    · rw [if_neg hx]

theorem dropWhile_eq_self_of_length (p : Char → Bool) (l : List Char)
    (h : (l.dropWhile p).length = l.length) : l.dropWhile p = l := by
  cases l with
  | nil => rfl
  | cons x xs =>
    by_cases hx : p x = true
    · exfalso
      rw [List.dropWhile_cons, if_pos hx] at h
      have := length_dropWhile_le p xs
      simp at h
      omega
    · rw [List.dropWhile_cons, if_neg hx]

theorem stripChars_self_dropWhile (l : List Char) (h : stripChars l = l) :
    l.dropWhile isPySpace = l := by
  have h1 : l.length = (stripChars l).length := by rw [h]
  have h2 : (stripChars l).length ≤ (l.dropWhile isPySpace).length := by
    simp only [stripChars, List.length_reverse]
    calc ((l.dropWhile isPySpace).reverse.dropWhile isPySpace).length
        ≤ (l.dropWhile isPySpace).reverse.length := length_dropWhile_le _ _
      _ = (l.dropWhile isPySpace).length := by simp
  have h3 : (l.dropWhile isPySpace).length ≤ l.length := length_dropWhile_le _ _
  exact dropWhile_eq_self_of_length _ _ (le_antisymm h3 (by omega))

theorem stripChars_self_rev (l : List Char) (h : stripChars l = l) :
    (l.reverse).dropWhile isPySpace = l.reverse := by
  have hd := stripChars_self_dropWhile l h
  have h2 : ((l.reverse).dropWhile isPySpace).reverse = l := by
    have : stripChars l = ((l.reverse).dropWhile isPySpace).reverse := by
      rw [stripChars, hd]
    rw [← this, h]
  calc (l.reverse).dropWhile isPySpace
      = (((l.reverse).dropWhile isPySpace).reverse).reverse := by simp
    _ = l.reverse := by rw [h2]

theorem head_not_space_of_strip (x : Char) (t : List Char)
    (h : stripChars (x :: t) = x :: t) : isPySpace x = false := by
  have hd := stripChars_self_dropWhile _ h
  by_cases hx : isPySpace x = true
  · exfalso
    rw [List.dropWhile_cons, if_pos hx] at hd
    have := length_dropWhile_le isPySpace t
    have := congrArg List.length hd
    simp at this
    omega
  · simpa using hx

theorem stripChars_append_nl (l : List Char) (h : stripChars l = l) :
    stripChars (l ++ ['\n']) = l := by
  cases l with
  | nil => decide
  | cons x xs =>
    have hx := head_not_space_of_strip x xs h
    have h1 : ((x :: xs) ++ ['\n']).dropWhile isPySpace = (x :: xs) ++ ['\n'] := by
      rw [List.cons_append, List.dropWhile_cons, if_neg (by simp [hx])]
    rw [stripChars, h1]
    have h2 : ((x :: xs) ++ ['\n']).reverse = '\n' :: (x :: xs).reverse := by simp
    rw [h2, List.dropWhile_cons, if_pos (by decide), stripChars_self_rev _ h]
    simp

theorem strip_data_of_pstrip (m : String) (h : pstrip m = m) :
    stripChars m.data = m.data := by
  have := congrArg String.data h
  simpa [pstrip] using this

theorem data_ne_nil_of_ne (m : String) (h : m ≠ "") : m.data ≠ [] := by
  intro hd
  exact h (by cases m with | mk d => simp_all)



theorem string_mk_data (m : String) : String.mk m.data = m := rfl

theorem fixMessage_eq (num : List Char) (m : String) (hne : m ≠ "")
    (hstrip : pstrip m = m) (hbt : ∀ ch ∈ m.data, ch ≠ btick)
    (hcm : startsWithL "/*".data m.data = false) :
    fixMessage num m.data = m := by
  have hd := data_ne_nil_of_ne m hne
  have hsd := strip_data_of_pstrip m hstrip
  obtain ⟨mh, mt, hm⟩ : ∃ mh mt, m.data = mh :: mt := by
    cases hdm : m.data with
    | nil => exact absurd hdm hd
    | cons a b => exact ⟨a, b, rfl⟩
  have hbtick : (btick == mh) = false := by
    simp only [beq_eq_false_iff_ne]
    exact fun h => (hbt mh (by simp [hm])) h.symm
  have hs2 : stripChars (mh :: mt) = mh :: mt := hm ▸ hsd
  have hmk : String.mk (mh :: mt) = m := by rw [← hm]
  have hne2 : (String.mk (mh :: mt) == "") = false := by
    simp only [beq_eq_false_iff_ne]
    rw [hmk]
    exact hne
  have hfence : startsWithL "```".data (mh :: mt) = false := by
    rw [fence_data]
    simp [startsWithL, hbtick]
  rw [hm] at hcm ⊢
  simp only [fixMessage, List.isEmpty_cons, if_false, Bool.false_eq_true, hs2,
    hfence, hcm, hne2, Bool.false_or, Bool.or_self]
  exact hmk


theorem data_cons_of_ne (m : String) (h : m ≠ "") : ∃ mh mt, m.data = mh :: mt := by
  cases hdm : m.data with
  | nil => exact absurd hdm (data_ne_nil_of_ne m h)
  | cons a b => exact ⟨a, b, rfl⟩

/-- A well-formed block is matched by the structured pattern, producing the
expected three captures. -/
theorem mseq_block_good (n : Char) (m c : String) (rest : List Char)
    (hn_d : isAsciiDigit n = true) (hn_ws : isPySpace n = false)
    (hm : goodMsg m) (hc : goodCode c) :
    mseq p1toks (commitBlockChars n m.data c.data ++ rest) []
      (fun r cs => some (cs, r)) = some ([[n], m.data, c.data ++ ['\n']], rest) := by
  obtain ⟨hne, hstrip, hchars, hcm⟩ := hm
  obtain ⟨hcstrip, hcchars⟩ := hc
  obtain ⟨mh, mt, hmd⟩ := data_cons_of_ne m hne
  have hmh_ws : isPySpace mh = false :=
    head_not_space_of_strip mh mt (hmd ▸ strip_data_of_pstrip m hstrip)
  rw [hmd]
  refine mseq_block1 n mh mt c.data rest _ _ hn_d hn_ws ?_ hmh_ws ?_ rfl
  · intro ch hch
    simp only [beq_eq_false_iff_ne]
    exact (hchars ch (by rw [hmd]; exact hch)).1
  · intro ch hch
    simp only [beq_eq_false_iff_ne]
    exact hcchars ch hch

/-- The `finditer` scan of a three-block structured response returns exactly
the three matches, in order. -/
theorem finditer_structured (m1 c1 m2 c2 m3 c3 : String)
    (hm1 : goodMsg m1) (hm2 : goodMsg m2) (hm3 : goodMsg m3)
    (hc1 : goodCode c1) (hc2 : goodCode c2) (hc3 : goodCode c3) :
    finditerP1 (structuredResponse3 m1 c1 m2 c2 m3 c3).data =
      [[['1'], m1.data, c1.data ++ ['\n']],
       [['2'], m2.data, c2.data ++ ['\n']],
       [['3'], m3.data, c3.data ++ ['\n']]] := by
  have hB3 : commitBlockChars '3' m3.data c3.data =
      commitBlockChars '3' m3.data c3.data ++ [] := by simp
  have H1 := mseq_block_good '1' m1 c1
    ('\n' :: (commitBlockChars '2' m2.data c2.data ++
      ('\n' :: commitBlockChars '3' m3.data c3.data)))
    (by decide) (by decide) hm1 hc1
  have H2 := mseq_block_good '2' m2 c2
    ('\n' :: commitBlockChars '3' m3.data c3.data) (by decide) (by decide) hm2 hc2
  have H3 : mseq p1toks (commitBlockChars '3' m3.data c3.data) []
      (fun r cs => some (cs, r)) =
      some ([['3'], m3.data, c3.data ++ ['\n']], []) := by
    rw [hB3]
    exact mseq_block_good '3' m3 c3 [] (by decide) (by decide) hm3 hc3
  show scanP1 ((commitBlockChars '1' m1.data c1.data ++
      ('\n' :: (commitBlockChars '2' m2.data c2.data ++
        ('\n' :: commitBlockChars '3' m3.data c3.data)))).length + 1) true
      (commitBlockChars '1' m1.data c1.data ++
        ('\n' :: (commitBlockChars '2' m2.data c2.data ++
          ('\n' :: commitBlockChars '3' m3.data c3.data)))) = _
  have hlen : 2 ≤ (commitBlockChars '1' m1.data c1.data ++
      ('\n' :: (commitBlockChars '2' m2.data c2.data ++
        ('\n' :: commitBlockChars '3' m3.data c3.data)))).length := by
    simp [List.length_append]
    omega
  obtain ⟨f, hf⟩ : ∃ f, (commitBlockChars '1' m1.data c1.data ++
      ('\n' :: (commitBlockChars '2' m2.data c2.data ++
        ('\n' :: commitBlockChars '3' m3.data c3.data)))).length + 1 = f + 3 :=
    ⟨(commitBlockChars '1' m1.data c1.data ++
      ('\n' :: (commitBlockChars '2' m2.data c2.data ++
        ('\n' :: commitBlockChars '3' m3.data c3.data)))).length - 2, by omega⟩
  rw [hf, show f + 3 = f + 2 + 1 from rfl]
  rw [scanP1_match _ _ _ _ _ (tryMatch1_start _ _ _ H1)]
  rw [show f + 2 = f + 1 + 1 from rfl]
  rw [scanP1_match _ _ _ _ _ (tryMatch1_newline _ _ _ H2)]
  rw [scanP1_match _ _ _ _ _ (tryMatch1_newline _ _ _ H3)]
  rw [scanP1_nil]



theorem structuredCommits_three (m1 c1 m2 c2 m3 c3 : String)
    (hm1 : goodMsg m1) (hm2 : goodMsg m2) (hm3 : goodMsg m3)
    (hc1 : goodCode c1) (hc2 : goodCode c2) (hc3 : goodCode c3) :
    structuredCommits (structuredResponse3 m1 c1 m2 c2 m3 c3) =
      [(m1, c1), (m2, c2), (m3, c3)] := by
  have hcode : ∀ (c : String), goodCode c →
      String.mk (stripChars (c.data ++ ['\n'])) = c := by
    intro c hc
    rw [stripChars_append_nl _ (strip_data_of_pstrip c hc.1), string_mk_data]
  rw [structuredCommits,
    finditer_structured m1 c1 m2 c2 m3 c3 hm1 hm2 hm3 hc1 hc2 hc3]
  simp only [List.map]
  rw [fixMessage_eq _ _ hm1.1 hm1.2.1 (fun ch hch => (hm1.2.2.1 ch hch).2) hm1.2.2.2,
    fixMessage_eq _ _ hm2.1 hm2.2.1 (fun ch hch => (hm2.2.2.1 ch hch).2) hm2.2.2.2,
    fixMessage_eq _ _ hm3.1 hm3.2.1 (fun ch hch => (hm3.2.2.1 ch hch).2) hm3.2.2.2,
    hcode c1 hc1, hcode c2 hc2, hcode c3 hc3]

theorem parse_structured_three (m1 c1 m2 c2 m3 c3 : String)
    (hm1 : goodMsg m1) (hm2 : goodMsg m2) (hm3 : goodMsg m3)
    (hc1 : goodCode c1) (hc2 : goodCode c2) (hc3 : goodCode c3) :
    parse_gpt_response (structuredResponse3 m1 c1 m2 c2 m3 c3) =
      [(m1, c1), (m2, c2), (m3, c3)] := by
  rw [parse_gpt_response]
  rw [structuredCommits_three m1 c1 m2 c2 m3 c3 hm1 hm2 hm3 hc1 hc2 hc3]
  rfl



theorem stripPrefixL_decomp : ∀ (l s r : List Char), stripPrefixL l s = some r → s = l ++ r := by
  intro l
  induction l with
  | nil => intro s r h; simp [stripPrefixL] at h; simp [h]
  | cons p ps ih =>
    intro s r h
    cases s with
    | nil => simp [stripPrefixL] at h
    | cons x xs =>
      rw [stripPrefixL] at h
      by_cases hpx : (p == x) = true
      · rw [if_pos hpx] at h
        have := ih xs r h
        simp only [List.cons_append]
        rw [← this]
        have : p = x := by simpa using hpx
        rw [this]
      · rw [if_neg hpx] at h
        exact absurd h (by simp)

theorem stripPrefixCIL_decomp : ∀ (l s r : List Char), stripPrefixCIL l s = some r →
    ∃ pre, s = pre ++ r := by
  intro l
  induction l with
  | nil =>
    intro s r h
    simp [stripPrefixCIL] at h
    exact ⟨[], by simp [h]⟩
  | cons p ps ih =>
    intro s r h
    cases s with
    | nil => simp [stripPrefixCIL] at h
    | cons x xs =>
      rw [stripPrefixCIL] at h
      by_cases hpx : eqCI p x = true
      · rw [if_pos hpx] at h
        obtain ⟨pre, hpre⟩ := ih xs r h
        exact ⟨x :: pre, by simp [hpre]⟩
      · rw [if_neg hpx] at h
        exact absurd h (by simp)

theorem startsWithL_self_append : ∀ (l r : List Char), startsWithL l (l ++ r) = true := by
  intro l
  induction l with
  | nil => intro r; rfl
  | cons p ps ih => intro r; simp [startsWithL, ih r]

theorem hasSub_of_startsWith (n s : List Char) (h : startsWithL n s = true) :
    hasSub n s = true := by
  cases s with
  | nil => simpa [hasSub] using h
  | cons x xs => simp [hasSub, h]

theorem hasSub_cons_of (n : List Char) (x : Char) (xs : List Char)
    (h : hasSub n xs = true) : hasSub n (x :: xs) = true := by
  simp [hasSub, h]

theorem hasSub_append_left (n : List Char) : ∀ (pre s : List Char),
    hasSub n s = true → hasSub n (pre ++ s) = true := by
  intro pre
  induction pre with
  | nil => intro s h; simpa using h
  | cons p ps ih => intro s h; simpa using hasSub_cons_of n p (ps ++ s) (ih s h)

theorem hasSub_drop (n s : List Char) (i : Nat) (h : hasSub n (s.drop i) = true) :
    hasSub n s = true := by
  have := hasSub_append_left n (s.take i) (s.drop i) h
  rwa [List.take_append_drop] at this

theorem tryDown_sound {α : Type} (f : Nat → Option α) :
    ∀ (n : Nat) (v : α), tryDown f n = some v → ∃ i, f i = some v := by
  intro n
  induction n with
  | zero => intro v h; simp [tryDown] at h
  | succ m ih =>
    intro v h
    rw [tryDown] at h
    cases hm : f (m + 1) with
    | some w =>
      rw [hm] at h
      simp only [Option.some.injEq] at h
      exact ⟨m + 1, by rw [hm, h]⟩
    | none => rw [hm] at h; exact ih v h

theorem tryDown0_sound {α : Type} (f : Nat → Option α) (n : Nat) (v : α)
    (h : tryDown0 f n = some v) : ∃ i, f i = some v := by
  rw [tryDown0] at h
  cases hm : tryDown f n with
  | some w =>
    rw [hm] at h
    simp only [Option.some.injEq] at h
    exact tryDown_sound f n v (by rw [hm, h])
  | none => rw [hm] at h; exact ⟨0, h⟩

theorem lazyStarCPS_sound {α : Type} (cl : Char → Bool) (go : List Char → Option α) :
    ∀ (s : List Char) (v : α), lazyStarCPS cl go s = some v → ∃ i, go (s.drop i) = some v := by
  intro s
  induction s with
  | nil => intro v h; exact ⟨0, by simpa [lazyStarCPS] using h⟩
  | cons x xs ih =>
    intro v h
    rw [lazyStarCPS] at h
    cases hg : go (x :: xs) with
    | some w =>
      rw [hg] at h
      simp only [Option.some.injEq] at h
      exact ⟨0, by simp only [List.drop_zero]; rw [hg, h]⟩
    | none =>
      rw [hg] at h
      by_cases hx : cl x = true
      · rw [if_pos hx] at h
        obtain ⟨i, hi⟩ := ih v h
        exact ⟨i + 1, hi⟩
      · rw [if_neg hx] at h
        exact absurd h (by simp)

theorem lazyPlusCPS_sound {α : Type} (cl : Char → Bool) (go : List Char → Option α)
    (s : List Char) (v : α) (h : lazyPlusCPS cl go s = some v) :
    ∃ i, go (s.drop i) = some v := by
  cases s with
  | nil => simp [lazyPlusCPS] at h
  | cons x xs =>
    rw [lazyPlusCPS] at h
    by_cases hx : cl x = true
    · rw [if_pos hx] at h
      obtain ⟨i, hi⟩ := lazyStarCPS_sound cl go xs v h
      exact ⟨i + 1, hi⟩
    · rw [if_neg hx] at h
      exact absurd h (by simp)

theorem capLazyStarCPS_sound {α : Type} (cl : Char → Bool)
    (go : List Char → List Char → Option α) :
    ∀ (s acc : List Char) (v : α), capLazyStarCPS cl go acc s = some v →
      ∃ g i, go g (s.drop i) = some v := by
  intro s
  induction s with
  | nil => intro acc v h; exact ⟨acc.reverse, 0, by simpa [capLazyStarCPS] using h⟩
  | cons x xs ih =>
    intro acc v h
    rw [capLazyStarCPS] at h
    cases hg : go acc.reverse (x :: xs) with
    | some w =>
      rw [hg] at h
      simp only [Option.some.injEq] at h
      exact ⟨acc.reverse, 0, by simp only [List.drop_zero]; rw [hg, h]⟩
    | none =>
      rw [hg] at h
      by_cases hx : cl x = true
      · rw [if_pos hx] at h
        obtain ⟨g, i, hi⟩ := ih (x :: acc) v h
        exact ⟨g, i + 1, hi⟩
      · rw [if_neg hx] at h
        exact absurd h (by simp)

/-- Soundness of the matcher with respect to literal tokens: a successful match
means every `lit` literal of the token list occurs in the input. -/
theorem mseq_lit_sub {α : Type} : ∀ (toks : List RTok) (s : List Char)
    (caps : List (List Char)) (k : List Char → List (List Char) → Option α) (v : α),
    mseq toks s caps k = some v → ∀ L, RTok.lit L ∈ toks → hasSub L s = true := by
  intro toks
  induction toks with
  | nil => intro s caps k v _ L hL; simp at hL
  | cons t ts ih =>
    intro s caps k v h L hL
    cases hL with
    | head =>
      rw [mseq] at h
      cases hs : stripPrefixL L s with
      | none => rw [hs] at h; simp at h
      | some r =>
        rw [stripPrefixL_decomp L s r hs]
        exact hasSub_of_startsWith _ _ (startsWithL_self_append L r)
    | tail _ hL =>
        cases t with
        | lit l =>
          rw [mseq] at h
          cases hs : stripPrefixL l s with
          | none => rw [hs] at h; simp at h
          | some r =>
            rw [hs] at h
            rw [stripPrefixL_decomp l s r hs]
            exact hasSub_append_left L l r (ih r caps k v h L hL)
        | litCI l =>
          rw [mseq] at h
          cases hs : stripPrefixCIL l s with
          | none => rw [hs] at h; simp at h
          | some r =>
            rw [hs] at h
            obtain ⟨pre, hpre⟩ := stripPrefixCIL_decomp l s r hs
            rw [hpre]
            exact hasSub_append_left L pre r (ih r caps k v h L hL)
        | starG cl =>
          rw [mseq] at h
          obtain ⟨i, hi⟩ := tryDown0_sound _ _ _ h
          exact hasSub_drop L s i (ih (s.drop i) caps k v hi L hL)
        | plusG cl =>
          rw [mseq] at h
          obtain ⟨i, hi⟩ := tryDown_sound _ _ _ h
          exact hasSub_drop L s i (ih (s.drop i) caps k v hi L hL)
        | plusL cl =>
          rw [mseq] at h
          obtain ⟨i, hi⟩ := lazyPlusCPS_sound _ _ _ _ h
          exact hasSub_drop L s i (ih (s.drop i) caps k v hi L hL)
        | capPlusG cl =>
          rw [mseq] at h
          obtain ⟨i, hi⟩ := tryDown_sound _ _ _ h
          exact hasSub_drop L s i (ih (s.drop i) (caps ++ [s.take i]) k v hi L hL)
        | capStarL cl =>
          rw [mseq] at h
          obtain ⟨g, i, hi⟩ := capLazyStarCPS_sound _ _ _ _ _ h
          exact hasSub_drop L s i (ih (s.drop i) (caps ++ [g]) k v hi L hL)
        | optCI l =>
          rw [mseq] at h
          cases hs : stripPrefixCIL l s with
          | none =>
            rw [hs] at h
            exact ih s caps k v h L hL
          | some r =>
            rw [hs] at h
            have h2 : (match mseq ts r caps k with
                | some v => some v
                | none => mseq ts s caps k) = some v := h
            cases hr : mseq ts r caps k with
            | some w =>
              obtain ⟨pre, hpre⟩ := stripPrefixCIL_decomp l s r hs
              rw [hpre]
              exact hasSub_append_left L pre r (ih r caps k w hr L hL)
            | none =>
              rw [hr] at h2
              exact ih s caps k v h2 L hL


theorem p1_fence_mem : RTok.lit "```".data ∈ p1toks := by
  simp [p1toks]

theorem p2_fence_mem : RTok.lit "```".data ∈ p2toks := by
  simp [p2toks]

theorem hasSub_tail (n : List Char) (x : Char) (xs : List Char)
    (h : hasSub n (x :: xs) = false) : hasSub n xs = false := by
  by_contra hc
  simp only [Bool.not_eq_false] at hc
  rw [hasSub_cons_of n x xs hc] at h
  exact absurd h (by simp)

theorem tryMatch1_none_of_no_fence (a : Bool) (s : List Char)
    (h : hasSub "```".data s = false) : tryMatch1 a s = none := by
  have h1 : mseq p1toks s [] (fun r cs => some (cs, r)) = none := by
    cases hm : mseq p1toks s [] (fun r cs => some (cs, r)) with
    | none => rfl
    | some v =>
      rw [mseq_lit_sub p1toks s [] _ v hm "```".data p1_fence_mem] at h
      exact absurd h (by simp)
  rw [tryMatch1.eq_def]
  cases a with
  | false =>
    simp only [if_false, Bool.false_eq_true]
    cases s with
    | nil => rfl
    | cons c rest =>
      show (if (c == '\n') = true
        then mseq p1toks rest [] fun r caps => some (caps, r) else none) = none
      by_cases hcn : (c == '\n') = true
      · rw [if_pos hcn]
        cases hm : mseq p1toks rest [] (fun r cs => some (cs, r)) with
        | none => rfl
        | some v =>
          have := mseq_lit_sub p1toks rest [] _ v hm "```".data p1_fence_mem
          rw [hasSub_cons_of _ c rest this] at h
          exact absurd h (by simp)
      · rw [if_neg hcn]
  | true =>
    simp only [if_true]
    rw [h1]
    cases s with
    | nil => rfl
    | cons c rest =>
      show (if (c == '\n') = true
        then mseq p1toks rest [] fun r caps => some (caps, r) else none) = none
      by_cases hcn : (c == '\n') = true
      · rw [if_pos hcn]
        cases hm : mseq p1toks rest [] (fun r cs => some (cs, r)) with
        | none => rfl
        | some v =>
          have := mseq_lit_sub p1toks rest [] _ v hm "```".data p1_fence_mem
          rw [hasSub_cons_of _ c rest this] at h
          exact absurd h (by simp)
      · rw [if_neg hcn]

theorem scanP1_succ (f : Nat) (a : Bool) (s : List Char) :
    scanP1 (f + 1) a s =
      (match tryMatch1 a s with
       | some (caps, rest) => caps :: scanP1 f false rest
       | none =>
         match s with
         | [] => []
         | _ :: tail => scanP1 f false tail) := rfl

theorem scanP2_succ (f : Nat) (s : List Char) :
    scanP2 (f + 1) s =
      (match tryMatch2 s with
       | some (caps, rest) => caps.headD [] :: scanP2 f rest
       | none =>
         match s with
         | [] => []
         | _ :: tail => scanP2 f tail) := rfl

theorem scanP1_none (fuel : Nat) : ∀ (a : Bool) (s : List Char),
    hasSub "```".data s = false → scanP1 fuel a s = [] := by
  induction fuel with
  | zero => intro a s _; rfl
  | succ f ih =>
    intro a s h
    rw [scanP1_succ, tryMatch1_none_of_no_fence a s h]
    cases s with
    | nil => rfl
    | cons x tail => exact ih false tail (hasSub_tail _ x tail h)

theorem tryMatch2_none_of_no_fence (s : List Char)
    (h : hasSub "```".data s = false) : tryMatch2 s = none := by
  cases hm : tryMatch2 s with
  | none => rfl
  | some v =>
    rw [tryMatch2] at hm
    rw [mseq_lit_sub p2toks s [] _ v hm "```".data p2_fence_mem] at h
    exact absurd h (by simp)

theorem scanP2_none (fuel : Nat) : ∀ (s : List Char),
    hasSub "```".data s = false → scanP2 fuel s = [] := by
  induction fuel with
  | zero => intro s _; rfl
  | succ f ih =>
    intro s h
    rw [scanP2_succ, tryMatch2_none_of_no_fence s h]
    cases s with
    | nil => rfl
    | cons x tail => exact ih tail (hasSub_tail _ x tail h)

/-- A response with no code fence at all parses to the single last-resort
commit. -/
theorem parse_no_fence (s : String) (h : hasSubStr "```" s = false) :
    parse_gpt_response s = [("Initial implementation", pstrip s)] := by
  have h1 : structuredCommits s = [] := by
    rw [structuredCommits, finditerP1, scanP1_none _ _ _ h]
    rfl
  have h2 : fallbackBlocks s = [] := by
    rw [fallbackBlocks, findallP2, scanP2_none _ _ h]
    rfl
  rw [parse_gpt_response]
  rw [h1, h2]
  rfl


theorem fencejava_data : "```java".data =
    btick :: btick :: btick :: 'j' :: 'a' :: 'v' :: 'a' :: [] := rfl

theorem data_append (x y : String) : (x ++ y).data = x.data ++ y.data := rfl

theorem hasSub_fence_false (e : List Char) (he : ∀ ch ∈ e, (ch == btick) = false) :
    hasSub "```".data e = false := by
  induction e with
  | nil => rfl
  | cons x xs ih =>
    have hx : (btick == x) = false := by
      simp only [beq_eq_false_iff_ne]
      have : ¬ x = btick := by simpa using he x (by simp)
      exact fun hq => this hq.symm
    rw [hasSub, fence_data]
    simp only [startsWithL, hx, Bool.false_and, Bool.false_or]
    exact ih (fun ch hch => he ch (by simp [hch]))

/-- The fallback pattern matches a fenced java block at the head of the input,
capturing exactly the backtick-free body. -/
theorem tryMatch2_fence (b rest : List Char) (hb : ∀ ch ∈ b, (ch == btick) = false) :
    tryMatch2 ("```java".data ++ (b ++ ("```".data ++ rest))) = some ([b], rest) := by
  rw [tryMatch2]
  refine mseq_lit_step _ _ _ (b ++ ("```".data ++ rest)) _ _ _ rfl ?_
  refine mseq_capStarL_first _ (fun x => !(x == btick)) _ b ("```".data ++ rest) _ _ _ ?_ ?_ ?_
  · intro x xs caps2 hx
    rw [fence_data]
    refine mseq_lit_head_none _ _ _ _ _ _ _ ?_
    simp only [beq_eq_false_iff_ne]
    have hx2 : ¬ x = btick := by simpa using hx
    exact fun hq => hx2 hq.symm
  · intro ch hch
    exact ⟨by simpa using hb ch hch, rfl⟩
  · refine mseq_lit_step _ _ _ rest _ _ _ rfl ?_
    exact mseq_nil_step _ _ _ _ rfl

theorem tryMatch2_head_none (x : Char) (xs : List Char) (hx : (x == btick) = false) :
    tryMatch2 (x :: xs) = none := by
  rw [tryMatch2]
  show mseq (RTok.lit (btick :: btick :: btick :: 'j' :: 'a' :: 'v' :: 'a' :: []) ::
    [RTok.capStarL (fun _ => true), RTok.lit "```".data]) (x :: xs) []
    (fun r caps => some (caps, r)) = none
  refine mseq_lit_head_none _ _ _ _ _ _ _ ?_
  simp only [beq_eq_false_iff_ne]
  have hx2 : ¬ x = btick := by simpa using hx
  exact fun hq => hx2 hq.symm

theorem scanP2_skip : ∀ (a : List Char) (f : Nat) (rest : List Char),
    (∀ ch ∈ a, (ch == btick) = false) →
    scanP2 (a.length + f) (a ++ rest) = scanP2 f rest := by
  intro a
  induction a with
  | nil => intro f rest _; simp
  | cons x xs ih =>
    intro f rest ha
    have harith : (x :: xs).length + f = (xs.length + f) + 1 := by
      simp [List.length_cons]
      omega
    rw [harith, List.cons_append, scanP2_succ,
      tryMatch2_head_none x (xs ++ rest) (ha x (by simp))]
    exact ih f rest (fun ch hch => ha ch (by simp [hch]))


/-- The `findall` scan of a response holding exactly two fenced java blocks
(and no other backticks) captures exactly the two bodies. -/
theorem findall_two_blocks (a b c d e : List Char)
    (ha : ∀ ch ∈ a, (ch == btick) = false) (hb : ∀ ch ∈ b, (ch == btick) = false)
    (hc : ∀ ch ∈ c, (ch == btick) = false) (hd : ∀ ch ∈ d, (ch == btick) = false)
    (he : ∀ ch ∈ e, (ch == btick) = false) :
    findallP2 (a ++ ("```java".data ++ (b ++ ("```".data ++
      (c ++ ("```java".data ++ (d ++ ("```".data ++ e)))))))) = [b, d] := by
  have He : scanP2 (b.length + d.length + e.length + 19) e = [] :=
    scanP2_none _ _ (hasSub_fence_false e he)
  have Hd : scanP2 ((b.length + d.length + e.length + 19) + 1)
      ("```java".data ++ (d ++ ("```".data ++ e))) = [d] := by
    rw [scanP2_succ, tryMatch2_fence d _ hd]
    show d :: scanP2 (b.length + d.length + e.length + 19) e = [d]
    rw [He]
  have Hc : scanP2 (c.length + ((b.length + d.length + e.length + 19) + 1))
      (c ++ ("```java".data ++ (d ++ ("```".data ++ e)))) = [d] := by
    rw [scanP2_skip c _ _ hc]
    exact Hd
  have Hb : scanP2 ((c.length + ((b.length + d.length + e.length + 19) + 1)) + 1)
      ("```java".data ++ (b ++ ("```".data ++
        (c ++ ("```java".data ++ (d ++ ("```".data ++ e))))))) = [b, d] := by
    rw [scanP2_succ, tryMatch2_fence b _ hb]
    show b :: scanP2 (c.length + ((b.length + d.length + e.length + 19) + 1))
      (c ++ ("```java".data ++ (d ++ ("```".data ++ e)))) = [b, d]
    rw [Hc]
  have Ha : scanP2 (a.length + (((c.length +
      ((b.length + d.length + e.length + 19) + 1)) + 1)))
      (a ++ ("```java".data ++ (b ++ ("```".data ++
        (c ++ ("```java".data ++ (d ++ ("```".data ++ e)))))))) = [b, d] := by
    rw [scanP2_skip a _ _ ha]
    exact Hb
  rw [findallP2]
  rw [show (a ++ ("```java".data ++ (b ++ ("```".data ++
      (c ++ ("```java".data ++ (d ++ ("```".data ++ e)))))))).length + 1 =
      a.length + (((c.length + ((b.length + d.length + e.length + 19) + 1)) + 1)) from by
    simp [List.length_append]
    omega]
  exact Ha

/-- A response of exactly two fenced java blocks, with no structured markers
and no stray backticks, parses to the two fallback-numbered steps. -/
theorem parse_two_java_blocks (a b c d e : String)
    (ha : ∀ ch ∈ a.data, ch ≠ btick) (hb : ∀ ch ∈ b.data, ch ≠ btick)
    (hc : ∀ ch ∈ c.data, ch ≠ btick) (hd : ∀ ch ∈ d.data, ch ≠ btick)
    (he : ∀ ch ∈ e.data, ch ≠ btick)
    (hstruct : structuredCommits (fallbackResponse2 a b c d e) = []) :
    parse_gpt_response (fallbackResponse2 a b c d e) =
      [("Step 1", pstrip b), ("Step 2", pstrip d)] := by
  have hdata : (fallbackResponse2 a b c d e).data =
      a.data ++ ("```java".data ++ (b.data ++ ("```".data ++
        (c.data ++ ("```java".data ++ (d.data ++ ("```".data ++ e.data))))))) := by
    simp [fallbackResponse2, data_append, List.append_assoc]
  have hbool : ∀ (m : String), (∀ ch ∈ m.data, ch ≠ btick) →
      ∀ ch ∈ m.data, (ch == btick) = false := by
    intro m hm ch hch
    simp only [beq_eq_false_iff_ne]
    exact hm ch hch
  have hblocks : findallP2 (fallbackResponse2 a b c d e).data = [b.data, d.data] := by
    rw [hdata]
    exact findall_two_blocks a.data b.data c.data d.data e.data
      (hbool a ha) (hbool b hb) (hbool c hc) (hbool d hd) (hbool e he)
  have hfb : fallbackBlocks (fallbackResponse2 a b c d e) =
      [("Step 1", pstrip b), ("Step 2", pstrip d)] := by
    rw [fallbackBlocks, hblocks]
    have h01 : "Step " ++ toString (0 + 1) = "Step 1" := by decide
    have h12 : "Step " ++ toString (1 + 1) = "Step 2" := by decide
    simp [List.enum, List.enumFrom, h01, h12, pstrip]
  rw [parse_gpt_response, hstruct, hfb]
  simp

theorem applyGo_eq_amended : ∀ (l : List (String × String)) (cur : String) (idx : Nat),
    1 ≤ idx → applyCommitsGo cur idx l = amendedWritesGo cur (idx == 1) l := by
  intro l
  induction l with
  | nil => intro cur idx _; rfl
  | cons p tl ih =>
    intro cur idx hidx
    rw [applyCommitsGo.eq_def, amendedWritesGo.eq_def]
    cases p with
    | mk msg code =>
      have hnext : ((idx + 1) == 1) = false := by
        simp only [beq_eq_false_iff_ne]
        omega
      simp only
      rw [ih _ (idx + 1) (by omega), hnext]

theorem applyGo_length : ∀ (l : List (String × String)) (cur : String) (idx : Nat),
    (applyCommitsGo cur idx l).length = l.length := by
  intro l
  induction l with
  | nil => intro cur idx; rfl
  | cons p tl ih =>
    intro cur idx
    cases p with
    | mk msg code => simp only [applyCommitsGo, List.length_cons, ih]

/-- C3 (counterexample): for the single-step list whose snippet is not a
complete Java file, `_apply_commits` writes the snippet itself (the first-step
special case), not the previous content with the snippet appended after a blank
line, so the claim as stated fails. -/
theorem C3_counterexample :
    apply_commits_writes [("add accumulator", "int x = 1;")] = ["int x = 1;"] ∧
    is_complete_java_file "int x = 1;" = false ∧
    ("int x = 1;" : String) ≠ "" ++ "\n\n" ++ "int x = 1;" := by
  refine ⟨by decide, by decide, by decide⟩

/-- C3 (amended): for every non-empty list of parsed steps, `_apply_commits`
writes the tracked file once per step and creates one commit per step; the
content written for a step is the step's code when `is_complete_java_file`
accepts it or the step is the first one, and otherwise the previous accumulated
content with the code appended after a blank line. -/
theorem C3_apply_commits (pkg : Option String) (filename : String)
    (commits : List (String × String)) (_ : commits ≠ []) :
    (apply_commits_writes commits).length = commits.length ∧
    (apply_commits_messages pkg filename commits).length = commits.length ∧
    apply_commits_writes commits = amendedClaimWrites commits := by
  refine ⟨applyGo_length commits "" 1, by simp [apply_commits_messages], ?_⟩
  rw [apply_commits_writes, amendedClaimWrites, applyGo_eq_amended commits "" 1 (by omega)]
  rfl

theorem C3_witness :
    ([("start", "class Foo \x7b \x7d"), ("more", "int y;")] : List (String × String)) ≠ [] ∧
    ((apply_commits_writes [("start", "class Foo \x7b \x7d"), ("more", "int y;")]).length =
        ([("start", "class Foo \x7b \x7d"), ("more", "int y;")] : List (String × String)).length ∧
      (apply_commits_messages (some "testcases") "Foo.java"
          [("start", "class Foo \x7b \x7d"), ("more", "int y;")]).length =
        ([("start", "class Foo \x7b \x7d"), ("more", "int y;")] : List (String × String)).length ∧
      apply_commits_writes [("start", "class Foo \x7b \x7d"), ("more", "int y;")] =
        amendedClaimWrites [("start", "class Foo \x7b \x7d"), ("more", "int y;")]) :=
  ⟨by decide, C3_apply_commits (some "testcases") "Foo.java" _ (by decide)⟩

/-- C4: testcase directories are sorted into ascending order of their numeric
`testcase-N` suffix (the sorted output is a permutation of the input), and
within one testcase the steps are strictly sequential: CWE analysis is invoked
iff commit-history generation succeeded, patch generation is invoked iff CWE
analysis succeeded with a findings file, and the invocation trace is always a
prefix of commit-history, CWE-analysis, patch-generation. -/
theorem C4_pipeline_sequencing :
    (∀ dirs : List String,
      (∀ d ∈ dirs, lastDashChunk d.data ≠ [] ∧
        ∀ ch ∈ lastDashChunk d.data, isAsciiDigit ch = true) →
      List.Sorted tcLe (find_testcase_directories dirs) ∧
        List.Perm (find_testcase_directories dirs) dirs) ∧
    (∀ (o1 : Bool) (o2 : Bool × Option String) (o3 : Bool),
      ((StepEv.cweAnalysis ∈ (process_single_testcase o1 o2 o3).1) ↔ o1 = true) ∧
      ((StepEv.patchGen ∈ (process_single_testcase o1 o2 o3).1) ↔
        (o1 && o2.1 && o2.2.isSome) = true) ∧
      ((process_single_testcase o1 o2 o3).1 = [StepEv.commitHist] ∨
       (process_single_testcase o1 o2 o3).1 = [StepEv.commitHist, StepEv.cweAnalysis] ∨
       (process_single_testcase o1 o2 o3).1 =
         [StepEv.commitHist, StepEv.cweAnalysis, StepEv.patchGen])) := by
  constructor
  · intro dirs _
    exact ⟨List.sorted_insertionSort tcLe dirs, List.perm_insertionSort tcLe dirs⟩
  · intro o1 o2 o3
    obtain ⟨s2, ff⟩ := o2
    cases o1 <;> cases s2 <;> cases ff <;> cases o3 <;>
      simp [process_single_testcase]

theorem C4_witness :
    (∀ d ∈ (["root/testcase-10", "root/testcase-2", "root/testcase-31"] : List String),
      lastDashChunk d.data ≠ [] ∧ ∀ ch ∈ lastDashChunk d.data, isAsciiDigit ch = true) ∧
    (List.Sorted tcLe (find_testcase_directories
        ["root/testcase-10", "root/testcase-2", "root/testcase-31"]) ∧
      List.Perm
        (find_testcase_directories ["root/testcase-10", "root/testcase-2", "root/testcase-31"])
        ["root/testcase-10", "root/testcase-2", "root/testcase-31"]) :=
  ⟨by decide, C4_pipeline_sequencing.1 _ (by decide)⟩

/-- C5: the finding-field extraction of `patch_all_findings` treats the alias
field spellings equivalently: the `filepath`/`line_number`/`cweId` finding and
the `file_path`/`line`/`cwe_id` finding reduce to the same (file path, line,
CWE) triple, and one loop iteration of the patcher treats them identically. -/
theorem C5_field_aliases :
    extractFields [("filepath", JVal.jstr "a.java"), ("line_number", JVal.jnum 10),
        ("cweId", JVal.jstr "CWE89")] =
      extractFields [("file_path", JVal.jstr "a.java"), ("line", JVal.jnum 10),
        ("cwe_id", JVal.jstr "CWE89")] ∧
    extractFields [("filepath", JVal.jstr "a.java"), ("line_number", JVal.jnum 10),
        ("cweId", JVal.jstr "CWE89")] =
      (some (JVal.jstr "a.java"), some (JVal.jnum 10), some (JVal.jstr "CWE89")) ∧
    ∀ (oc : PatchOutcome) (st : PatchStats),
      patchStep oc [("filepath", JVal.jstr "a.java"), ("line_number", JVal.jnum 10),
          ("cweId", JVal.jstr "CWE89")] st =
        patchStep oc [("file_path", JVal.jstr "a.java"), ("line", JVal.jnum 10),
          ("cwe_id", JVal.jstr "CWE89")] st := by
  refine ⟨by decide, by decide, ?_⟩
  intro oc st
  have h1 : findingComplete [("filepath", JVal.jstr "a.java"), ("line_number", JVal.jnum 10),
      ("cweId", JVal.jstr "CWE89")] = true := by decide
  have h2 : findingComplete [("file_path", JVal.jstr "a.java"), ("line", JVal.jnum 10),
      ("cwe_id", JVal.jstr "CWE89")] = true := by decide
  cases oc with
  | raised => simp [patchStep, h1, h2]
  | committed ok => cases ok <;> simp [patchStep, h1, h2]

/-- Two association lists over string keys with identical key sequences agree,
for every query, on whether the lookup succeeds. -/
theorem lookup_isSome_of_keys_eq {A B : Type} (id : String) :
    ∀ (l1 : List (String × A)) (l2 : List (String × B)),
      l1.map Prod.fst = l2.map Prod.fst →
      (l1.lookup id).isSome = (l2.lookup id).isSome := by
  intro l1
  induction l1 with
  | nil =>
    intro l2 h
    cases l2 with
    | nil => rfl
    | cons q t => simp at h
  | cons p t ih =>
    intro l2 h
    cases l2 with
    | nil => simp at h
    | cons q t2 =>
      obtain ⟨k1, v1⟩ := p
      obtain ⟨k2, v2⟩ := q
      simp only [List.map, List.cons.injEq] at h
      obtain ⟨hk, ht⟩ := h
      subst hk
      simp only [List.lookup]
      cases hid : id == k1 with
      | true => rfl
      | false => exact ih t2 ht

/-- C6: for every id present in the template table `get_test_template` returns
that id's own hand-written template, and for every id not in the table it
returns the generic fallback; the local table used by the lookup and the
class-level `CWE_TEMPLATES` table agree on which ids are known; each of the 10
known ids gets a template different from the generic fallback; and the
fallback for an unknown id such as `CWE999` contains the failing-test stub. -/
theorem C6_template_lookup :
    (∀ p ∈ templateTable, get_test_template p.1 = p.2) ∧
    (∀ id : String, templateTable.lookup id = none →
      get_test_template id = fallbackTemplate id) ∧
    (∀ id : String, (templateTable.lookup id).isSome = (CWE_TEMPLATES.lookup id).isSome) ∧
    (["CWE15", "CWE78", "CWE80", "CWE81", "CWE83", "CWE89", "CWE113", "CWE129",
      "CWE134", "CWE606"].all
        (fun i => get_test_template i != fallbackTemplate i)) = true ∧
    get_test_template "CWE999" = fallbackTemplate "CWE999" ∧
    hasSubStr "fail(\x22Test not implemented for CWE999\x22)"
      (get_test_template "CWE999") = true := by
  refine ⟨?_, ?_, ?_, by decide, rfl, by decide⟩
  · intro p hp
    simp only [templateTable, List.mem_cons, List.not_mem_nil, or_false] at hp
    rcases hp with rfl | rfl | rfl | rfl | rfl | rfl | rfl | rfl | rfl | rfl <;> rfl
  · intro id h
    simp only [get_test_template, h]
  · intro id
    exact lookup_isSome_of_keys_eq id templateTable CWE_TEMPLATES rfl

/-- C6 witness: the universal halves instantiated at the known id `CWE89`,
whose table entry is `tmplCWE89`, and at the unknown id `CWE999`. -/
theorem C6_witness :
    (("CWE89", tmplCWE89) ∈ templateTable ∧ get_test_template "CWE89" = tmplCWE89) ∧
    (templateTable.lookup "CWE999" = none ∧
      get_test_template "CWE999" = fallbackTemplate "CWE999") := by
  have hmem : ("CWE89", tmplCWE89) ∈ templateTable := by
    simp [templateTable]
  have hnone : templateTable.lookup "CWE999" = none := rfl
  exact ⟨⟨hmem, C6_template_lookup.1 ("CWE89", tmplCWE89) hmem⟩,
         ⟨hnone, C6_template_lookup.2.1 "CWE999" hnone⟩⟩

/-- C7 (counterexample): for a filename carrying the unknown id `CWE999`, the
test-generation flow replaces the id by `CWE113` and uses the specific CWE113
template, which is not the generic fallback template the claim names. -/
theorem C7_counterexample :
    extract_cwe_from_filename "Test_CWE999_bad.java" = some "CWE999" ∧
    generateTestTemplateFor "Test_CWE999_bad.java" = tmplCWE113 ∧
    tmplCWE113 ≠ fallbackTemplate "CWE999" := by
  refine ⟨by decide, rfl, by decide⟩

/-- C7 (amended): whenever the CWE id extracted from the filename is missing or
not a key of the known table, `generate_test` builds the prompt from the CWE113
(HTTP response splitting) specific template. -/
theorem C7_unknown_cwe_default (filename : String)
    (h : match extract_cwe_from_filename filename with
         | none => True
         | some c => CWE_TEMPLATES.lookup c = none) :
    generateTestTemplateFor filename = tmplCWE113 := by
  rw [generateTestTemplateFor, effectiveCwe]
  cases hx : extract_cwe_from_filename filename with
  | none => rfl
  | some c =>
    rw [hx] at h
    have h2 : List.lookup c CWE_TEMPLATES = none := h
    show get_test_template
      (if (List.lookup c CWE_TEMPLATES).isSome = true then c else "CWE113") = tmplCWE113
    rw [h2]
    rfl

theorem C7_witness :
    (match extract_cwe_from_filename "Widget.java" with
     | none => True
     | some c => CWE_TEMPLATES.lookup c = none) ∧
    generateTestTemplateFor "Widget.java" = tmplCWE113 := by
  have hx : extract_cwe_from_filename "Widget.java" = none := by decide
  refine ⟨by rw [hx]; trivial, C7_unknown_cwe_default "Widget.java" (by rw [hx]; trivial)⟩

/-- C8: `is_complete_java_file` accepts every snippet whose comment- and
package/import-stripped text still contains a `class <name>` declaration, and
rejects a bare method fragment with no class declaration. -/
theorem C8_class_detection (s : String)
    (h : searchClassB false (cleanJava s.data) = true) :
    is_complete_java_file s = true ∧
    is_complete_java_file "public int add(int a, int b) \x7b return a + b; \x7d" = false :=
  ⟨h, by decide⟩

theorem C8_witness :
    searchClassB false
      (cleanJava ("/* header */\nimport java.util.List;\n// note\nclass Foo \x7b \x7d").data) = true ∧
    (is_complete_java_file "/* header */\nimport java.util.List;\n// note\nclass Foo \x7b \x7d" = true ∧
      is_complete_java_file "public int add(int a, int b) \x7b return a + b; \x7d" = false) :=
  ⟨by decide, C8_class_detection _ (by decide)⟩

theorem patchLoop_invariant : ∀ (l : List Finding) (oracle : Nat → PatchOutcome)
    (i : Nat) (st : PatchStats),
    (patchLoop oracle i st l).patched + (patchLoop oracle i st l).failed =
      st.patched + st.failed + l.length ∧
    (patchLoop oracle i st l).total = st.total := by
  intro l
  induction l with
  | nil => intro oracle i st; exact ⟨by simp [patchLoop], rfl⟩
  | cons f tl ih =>
    intro oracle i st
    have hstep : (patchStep (oracle i) f st).patched + (patchStep (oracle i) f st).failed =
        st.patched + st.failed + 1 ∧ (patchStep (oracle i) f st).total = st.total := by
      by_cases hc : findingComplete f = true
      · cases ho : oracle i with
        | raised => simp [patchStep, hc]; omega
        | committed ok => cases ok <;> simp [patchStep, hc] <;> omega
      · simp only [Bool.not_eq_true] at hc
        simp [patchStep, hc]
        omega
    have := ih oracle (i + 1) (patchStep (oracle i) f st)
    refine ⟨?_, ?_⟩
    · rw [patchLoop, this.1, hstep.1]
      simp [List.length_cons]
      omega
    · rw [patchLoop, this.2, hstep.2]

/-- C9: the statistics returned by `patch_all_findings` satisfy
`total = patched + failed` and `total` equals the number of findings: every
finding increments exactly one of the two outcome counters. -/
theorem C9_stats_invariant (findings : List Finding) (oracle : Nat → PatchOutcome) :
    (patch_all_findings findings oracle).total =
      (patch_all_findings findings oracle).patched +
        (patch_all_findings findings oracle).failed ∧
    (patch_all_findings findings oracle).total = findings.length := by
  rw [patch_all_findings]
  by_cases he : findings.isEmpty = true
  · have : findings = [] := by simpa [List.isEmpty_iff] using he
    subst this
    simp
  · simp only [he, if_false, Bool.false_eq_true]
    have h := patchLoop_invariant findings oracle 0 ⟨findings.length, 0, 0⟩
    have hA : (patchLoop oracle 0 ⟨findings.length, 0, 0⟩ findings).patched +
        (patchLoop oracle 0 ⟨findings.length, 0, 0⟩ findings).failed = findings.length := by
      have := h.1
      simpa using this
    have hB : (patchLoop oracle 0 ⟨findings.length, 0, 0⟩ findings).total =
        findings.length := by simpa using h.2
    exact ⟨by omega, hB⟩

/-- C1 (amended): for every response of three structured commit blocks whose
headings start with `#` (`# Commit N: msg` followed by a fenced java block),
with trimmed single-line messages free of backticks and not opening a block
comment, and trimmed backtick-free bodies, `parse_gpt_response` returns exactly
the three (message, code) pairs in order. -/
theorem C1_structured_blocks (m1 c1 m2 c2 m3 c3 : String)
    (hm1 : goodMsg m1) (hm2 : goodMsg m2) (hm3 : goodMsg m3)
    (hc1 : goodCode c1) (hc2 : goodCode c2) (hc3 : goodCode c3) :
    parse_gpt_response (structuredResponse3 m1 c1 m2 c2 m3 c3) =
      [(m1, c1), (m2, c2), (m3, c3)] :=
  parse_structured_three m1 c1 m2 c2 m3 c3 hm1 hm2 hm3 hc1 hc2 hc3

theorem C1_witness :
    goodMsg "Add skeleton" ∧ goodCode "class A \x7b\x7d" ∧
    parse_gpt_response (structuredResponse3 "Add skeleton" "class A \x7b\x7d"
        "Implement methods" "class A \x7b int x; \x7d" "Final cleanup" "class B \x7b\x7d") =
      [("Add skeleton", "class A \x7b\x7d"),
       ("Implement methods", "class A \x7b int x; \x7d"),
       ("Final cleanup", "class B \x7b\x7d")] :=
  ⟨⟨by decide, by decide, by decide, by decide⟩, ⟨by decide, by decide⟩,
    C1_structured_blocks _ _ _ _ _ _
      ⟨by decide, by decide, by decide, by decide⟩
      ⟨by decide, by decide, by decide, by decide⟩
      ⟨by decide, by decide, by decide, by decide⟩
      ⟨by decide, by decide⟩ ⟨by decide, by decide⟩ ⟨by decide, by decide⟩⟩

/-- C2: a response with no structured commit markers but two fenced java blocks
(and no stray backticks) parses to the two fallback steps `Step 1`, `Step 2`
with stripped bodies; and a response with no code fence at all parses to the
single step `Initial implementation` carrying the trimmed response. -/
theorem C2_fallback_stages :
    (∀ a b c d e : String,
      (∀ ch ∈ a.data, ch ≠ btick) → (∀ ch ∈ b.data, ch ≠ btick) →
      (∀ ch ∈ c.data, ch ≠ btick) → (∀ ch ∈ d.data, ch ≠ btick) →
      (∀ ch ∈ e.data, ch ≠ btick) →
      structuredCommits (fallbackResponse2 a b c d e) = [] →
      parse_gpt_response (fallbackResponse2 a b c d e) =
        [("Step 1", pstrip b), ("Step 2", pstrip d)]) ∧
    (∀ s : String, hasSubStr "```" s = false →
      parse_gpt_response s = [("Initial implementation", pstrip s)]) :=
  ⟨parse_two_java_blocks, parse_no_fence⟩

theorem C2_witness :
    parse_gpt_response (fallbackResponse2 "Here you go:\n" "\nint x;\n" "\nand then\n"
        "\nint y;\n" "\ndone\n") = [("Step 1", "int x;"), ("Step 2", "int y;")] ∧
    parse_gpt_response "plain text, no fences" =
      [("Initial implementation", "plain text, no fences")] := by
  constructor
  · have h := C2_fallback_stages.1 "Here you go:\n" "\nint x;\n" "\nand then\n"
      "\nint y;\n" "\ndone\n" (by decide) (by decide) (by decide) (by decide)
      (by decide) (by decide)
    rw [h]
    decide
  · have h := C2_fallback_stages.2 "plain text, no fences" (by decide)
    rw [h]
    decide

/-- C10: `parse_gpt_response` never returns an empty list (the last-resort
branch yields one step), so the `No commits could be parsed` branch of
`generate_commits` cannot be taken. -/
theorem C10_parse_never_empty (s : String) : parse_gpt_response s ≠ [] := by
  rw [parse_gpt_response]
  by_cases h1 : (structuredCommits s).isEmpty = true
  · by_cases h2 : (fallbackBlocks s).isEmpty = true
    · simp [h1, h2]
    · simp only [h1, if_true, Bool.not_eq_true] at *
      simp only [h2, if_false, Bool.false_eq_true]
      simpa [List.isEmpty_iff] using h2
  · simp only [Bool.not_eq_true] at h1
    simp only [h1, if_false, Bool.false_eq_true]
    simpa [List.isEmpty_iff] using h1

/-- C1 (counterexample): a response with three bare `Commit N: msg` blocks (no
`#` heading) is parsed by the fallback, labelling the steps `Step N` instead of
using the messages, so the claim as stated fails. -/
theorem C1_counterexample :
    parse_gpt_response ("Commit 1: first\n```java\nA\n```\nCommit 2: second\n```java\nB\n```\nCommit 3: third\n```java\nC\n```") =
      [("Step 1", "A"), ("Step 2", "B"), ("Step 3", "C")] ∧
    ([("Step 1", "A"), ("Step 2", "B"), ("Step 3", "C")] : List (String × String)) ≠
      [("first", "A"), ("second", "B"), ("third", "C")] := by
  constructor
  · decide
  · decide

end CommitBuilder
